import Mathlib

/-!
Verification of the guitar-tone-shootout audio pipeline core
(`pipeline/src/guitar_tone_shootout/`): segment timestamp bookkeeping,
VST3 preset encoding, chain parsing, level normalization and the metrics
extractor.  Numeric code is embedded over exact rationals/reals (floats
are modelled as exact arithmetic); byte-level code over lists of naturals.
-/

/- ===================== timestamps.py ===================== -/

/-- Truncation toward zero on exact rationals, as Python's `int()` applied
to a float expression. -/
def pyTrunc (q : ℚ) : ℤ := if 0 ≤ q then ⌊q⌋ else -⌊-q⌋

/-- The `SegmentTimestamps` dataclass of `timestamps.py`. -/
structure SegmentTimestamps where
  position : ℕ
  start_ms : ℤ
  end_ms : ℤ
  duration_ms : ℤ
  source_start_sample : ℤ
  source_end_sample : ℤ
  sample_rate : ℕ
deriving Repr, DecidableEq

/-- The classmethod `SegmentTimestamps.from_samples`:
`duration_ms = int((duration_samples / sample_rate) * 1000)`,
`start_ms = output_offset_ms`, `end_ms = output_offset_ms + duration_ms`. -/
def SegmentTimestamps.from_samples (position : ℕ) (start_sample end_sample : ℤ)
    (sample_rate : ℕ) (output_offset_ms : ℤ) : SegmentTimestamps :=
  let duration_samples : ℤ := end_sample - start_sample
  let duration_ms : ℤ := pyTrunc (((duration_samples : ℚ) / (sample_rate : ℚ)) * 1000)
  { position := position
    start_ms := output_offset_ms
    end_ms := output_offset_ms + duration_ms
    duration_ms := duration_ms
    source_start_sample := start_sample
    source_end_sample := end_sample
    sample_rate := sample_rate }

/-- The classmethod `SegmentTimestamps.from_duration_ms`:
`start_ms = output_offset_ms`, `end_ms = output_offset_ms + duration_ms`,
`duration_samples = int((duration_ms / 1000) * sample_rate)`. -/
def SegmentTimestamps.from_duration_ms (position : ℕ) (duration_ms : ℤ)
    (sample_rate : ℕ) (output_offset_ms : ℤ) : SegmentTimestamps :=
  { position := position
    start_ms := output_offset_ms
    end_ms := output_offset_ms + duration_ms
    duration_ms := duration_ms
    source_start_sample := 0
    source_end_sample := pyTrunc (((duration_ms : ℚ) / 1000) * (sample_rate : ℚ))
    sample_rate := sample_rate }

/-- The `SegmentTracker` dataclass: running list of segments and the
`_current_offset_ms` field. -/
structure SegmentTracker where
  sample_rate : ℕ
  segments : List SegmentTimestamps := []
  current_offset_ms : ℤ := 0
deriving Repr, DecidableEq

/-- Argument of one `add_segment` call: exactly one of `duration_samples`
(with `start_sample`, default 0) or `duration_ms` is supplied; supplying
neither raises `ValueError` and is excluded by this type. -/
inductive AddSegmentArg
  | samples (duration_samples : ℤ) (start_sample : ℤ)
  | ms (duration_ms : ℤ)
deriving Repr, DecidableEq

/-- The property `SegmentTracker.total_duration_ms`: 0 when there are no
segments, else the last segment's `end_ms`. -/
def SegmentTracker.total_duration_ms (t : SegmentTracker) : ℤ :=
  match t.segments.getLast? with
  | none => 0
  | some s => s.end_ms

/-- The method `SegmentTracker.add_segment`: builds the timestamps at the
current offset, appends them and advances the offset to the new `end_ms`. -/
def SegmentTracker.add_segment (t : SegmentTracker) (arg : AddSegmentArg) :
    SegmentTracker :=
  let position := t.segments.length
  let ts : SegmentTimestamps :=
    match arg with
    | .samples dur start =>
        SegmentTimestamps.from_samples position start (start + dur)
          t.sample_rate t.current_offset_ms
    | .ms dur =>
        SegmentTimestamps.from_duration_ms position dur
          t.sample_rate t.current_offset_ms
  { t with segments := t.segments ++ [ts], current_offset_ms := ts.end_ms }

/-- A fresh tracker, as `SegmentTracker(sample_rate=sr)`. -/
def SegmentTracker.new (sr : ℕ) : SegmentTracker := { sample_rate := sr }

/-- A sequence of `add_segment` calls on one tracker instance. -/
def SegmentTracker.run (sr : ℕ) (args : List AddSegmentArg) : SegmentTracker :=
  args.foldl SegmentTracker.add_segment (SegmentTracker.new sr)

/- ===================== preset.py ===================== -/

/-- ASCII/UTF-8 code points of a Lean string literal, as a byte list. -/
def strBytes (s : String) : List ℕ := s.toList.map Char.toNat

/-- Little-endian 4-byte encoding, `struct.pack("<I", n)`. -/
def u32le (n : ℕ) : List ℕ :=
  [n % 256, n / 256 % 256, n / 256 ^ 2 % 256, n / 256 ^ 3 % 256]

/-- Little-endian 8-byte encoding, `struct.pack("<Q", n)`. -/
def u64le (n : ℕ) : List ℕ :=
  [n % 256, n / 256 % 256, n / 256 ^ 2 % 256, n / 256 ^ 3 % 256,
   n / 256 ^ 4 % 256, n / 256 ^ 5 % 256, n / 256 ^ 6 % 256, n / 256 ^ 7 % 256]

/-- The module-level constant `NAM_CLASS_ID` (32 ASCII characters). -/
def NAM_CLASS_ID : List ℕ := strBytes "F2AEE70D00DE4F4E534441613159456F"

/-- The marker string `"###NeuralAmpModeler###"` written first into the state. -/
def NAM_MARKER : List ℕ := strBytes "###NeuralAmpModeler###"

/-- The constant `DEFAULT_NAM_VERSION = "0.7.13"`. -/
def DEFAULT_NAM_VERSION : List ℕ := strBytes "0.7.13"

/-- The helper `_put_string` of `preset.py`:
`encoded = s.encode("utf-8") + b"\x00" if s else b""` followed by
`struct.pack("<I", len(encoded)) + encoded`.  Strings are modelled by
their UTF-8 byte lists. -/
def put_string (s : List ℕ) : List ℕ :=
  let encoded := if s = [] then [] else s ++ [0]
  u32le encoded.length ++ encoded

/-- Modelled from the spec: each string encoded as a 4-byte little-endian
length of (UTF-8 bytes + 1 NUL), the bytes, and a trailing NUL.  Stated
for comparison against the source's `put_string`. -/
def put_string_spec (s : List ℕ) : List ℕ :=
  u32le (s.length + 1) ++ s ++ [0]

/-- The exception `PresetGenerationError` of `preset.py`. -/
inductive PresetGenerationError
  | wrongParamCount (got : ℕ)
  | badClassId (got : ℕ)
deriving Repr, DecidableEq

/-- IEEE-754 binary64 bit patterns of the twelve default parameter floats
`[0.5, 0.2, 0.5, 0.5, 0.5, 0.5, 1.0, 1.0, 0.0, 0.0, 0.6, 0.5]`.
Each double is modelled by its 64-bit pattern; `struct.pack("<d", x)`
serializes that pattern little-endian. -/
def DEFAULT_PARAMETERS : List (Fin (2 ^ 64)) :=
  [⟨0x3FE0000000000000, by decide⟩, ⟨0x3FC999999999999A, by decide⟩,
   ⟨0x3FE0000000000000, by decide⟩, ⟨0x3FE0000000000000, by decide⟩,
   ⟨0x3FE0000000000000, by decide⟩, ⟨0x3FE0000000000000, by decide⟩,
   ⟨0x3FF0000000000000, by decide⟩, ⟨0x3FF0000000000000, by decide⟩,
   ⟨0, by decide⟩, ⟨0, by decide⟩,
   ⟨0x3FE3333333333333, by decide⟩, ⟨0x3FE0000000000000, by decide⟩]

/-- The function `create_nam_state` of `preset.py`: four `_put_string`
fields (marker, version, model path, IR path) followed by twelve
little-endian doubles; a parameter list whose length is not 12 raises
`PresetGenerationError`. -/
def create_nam_state (nam_path : List ℕ) (ir_path : List ℕ)
    (version : List ℕ) (parameters : Option (List (Fin (2 ^ 64)))) :
    Except PresetGenerationError (List ℕ) :=
  let ps := parameters.getD DEFAULT_PARAMETERS
  if ps.length ≠ 12 then .error (.wrongParamCount ps.length)
  else
    .ok (put_string NAM_MARKER ++ put_string version ++
         put_string nam_path ++ put_string ir_path ++
         (ps.map (fun p => u64le p.val)).flatten)

/-- The function `create_vst3_preset` of `preset.py`: 48-byte header
(magic, version 1, 32-byte class id, chunk-list offset), component state,
then the chunk list; a class id that is not exactly 32 characters raises
`PresetGenerationError`. -/
def create_vst3_preset (class_id : List ℕ) (component_state : List ℕ) :
    Except PresetGenerationError (List ℕ) :=
  if class_id.length ≠ 32 then .error (.badClassId class_id.length)
  else
    let header_size : ℕ := 48
    let chunk_list_offset := header_size + component_state.length
    let chunk_list := strBytes "List" ++ u32le 1 ++ strBytes "Comp" ++
      u64le header_size ++ u64le component_state.length
    let header := strBytes "VST3" ++ u32le 1 ++ class_id ++ u64le chunk_list_offset
    .ok (header ++ component_state ++ chunk_list)

/- ===================== config.py ===================== -/

/-- The `ChainEffect` dataclass of `config.py`; strings as char lists. -/
structure ChainEffect where
  effect_type : List Char
  value : List Char
deriving Repr, DecidableEq

/-- The `SignalChain` dataclass of `config.py`. -/
structure SignalChain where
  name : List Char
  description : List Char
  chain : List ChainEffect
deriving Repr, DecidableEq

/-- Error raised while loading configuration (`ValueError` in the source). -/
inductive ConfigError
  | invalidFormat (part : List Char)
  | unknownType (t : List Char)
  | missingName (num : ℕ)
  | missingChain (num : ℕ)
deriving Repr, DecidableEq

/-- Python `str.strip()`: drop leading and trailing whitespace. -/
def pyStrip (s : List Char) : List Char :=
  ((s.dropWhile Char.isWhitespace).reverse.dropWhile Char.isWhitespace).reverse

/-- Python `part.split(":", 1)`: the text before the first colon and the
text after it. -/
def splitFirstColon (s : List Char) : List Char × List Char :=
  (s.takeWhile (· ≠ ':'), (s.dropWhile (· ≠ ':')).drop 1)

/-- The fixed set `valid_types` of `_parse_chain`. -/
def VALID_EFFECT_TYPES : List (List Char) :=
  ["nam".toList, "ir".toList, "eq".toList, "reverb".toList,
   "delay".toList, "gain".toList, "vst".toList]

/-- Loop body of `_parse_chain` over the comma-separated parts: blank
parts are skipped, a part without a colon raises, the type token is
stripped and lower-cased and must be a valid type. -/
def parseParts : List (List Char) → Except ConfigError (List ChainEffect)
  | [] => .ok []
  | raw :: rest =>
    let part := pyStrip raw
    if part = [] then parseParts rest
    else if ':' ∈ part then
      let t := (pyStrip (splitFirstColon part).1).map Char.toLower
      let v := pyStrip (splitFirstColon part).2
      if t ∈ VALID_EFFECT_TYPES then
        match parseParts rest with
        | .ok es => .ok (⟨t, v⟩ :: es)
        | .error e => .error e
      else .error (.unknownType t)
    else .error (.invalidFormat part)

/-- The function `_parse_chain` of `config.py`. -/
def parse_chain (chain_str : List Char) : Except ConfigError (List ChainEffect) :=
  parseParts (chain_str.splitOn ',')

/-- Decimal value of a digit string, for `int(num_str)`. -/
def digitsToNat (s : List Char) : ℕ :=
  s.foldl (fun n c => n * 10 + (c.toNat - 48)) 0

/-- Grouping step of `_load_signal_chains`: keep the `(number, field,
value)` triples of keys of the form `N.field` with `N` all digits. -/
def groupedEntries (items : List (List Char × List Char)) :
    List (ℕ × List Char × List Char) :=
  items.filterMap (fun kv =>
    let key := kv.1
    if '.' ∈ key then
      let num_str := (splitFirstDot key).1
      let field := (splitFirstDot key).2
      if num_str ≠ [] ∧ num_str.all Char.isDigit then
        some (digitsToNat num_str, field, kv.2)
      else none
    else none)
where
  /-- Python `key.split(".", 1)`. -/
  splitFirstDot (s : List Char) : List Char × List Char :=
    (s.takeWhile (· ≠ '.'), (s.dropWhile (· ≠ '.')).drop 1)

/-- Last-wins field lookup inside one numbered group (later assignments to
the same dict key overwrite earlier ones). -/
def lookupField (entries : List (ℕ × List Char × List Char)) (num : ℕ)
    (field : List Char) : Option (List Char) :=
  ((entries.filter (fun e => e.1 = num ∧ e.2.1 = field)).getLast?).map (·.2.2)

/-- The function `_load_signal_chains` of `config.py`, over the section's
`(key, value)` items: group by number prefix, then for each number in
ascending order require `name` and `chain`, parse the chain and build a
`SignalChain`; `description` defaults to the empty string.  Note no check
that the parsed chain is non-empty. -/
def load_signal_chains (items : List (List Char × List Char)) :
    Except ConfigError (List SignalChain) :=
  let entries := groupedEntries items
  let nums := (entries.map (·.1)).dedup.insertionSort (· ≤ ·)
  nums.foldlM (fun acc num =>
    match lookupField entries num "name".toList with
    | none => .error (.missingName num)
    | some name =>
      match lookupField entries num "chain".toList with
      | none => .error (.missingChain num)
      | some chain_str =>
        match parse_chain chain_str with
        | .error e => .error e
        | .ok effects =>
          .ok (acc ++ [⟨name, (lookupField entries num "description".toList).getD [],
                       effects⟩])) []

/- ===================== normalize.py ===================== -/

/-- Python-level exceptions of the numeric modules: `NormalizationError`
raised by `rms_db`, and `ValueError` raised by numpy reductions and FFTs
on zero-size input. -/
inductive PyExn
  | normalizationError
  | valueError
deriving Repr, DecidableEq

/-- A float expression's value: a finite real, `-inf`, or NaN. -/
inductive RVal
  | fin (x : ℝ)
  | neginf
  | nan

noncomputable section

/-- `np.mean`: Lean's division returns 0 on the empty list where numpy
produces NaN; call sites branch on emptiness explicitly where the NaN
matters. -/
def npMean (a : List ℝ) : ℝ := a.sum / a.length

/-- Mean of `audio**2`. -/
def meanSquare (a : List ℝ) : ℝ := npMean (a.map (fun x => x ^ 2))

/-- `rms_linear` of normalize.py: `np.sqrt(np.mean(audio**2))`. -/
def rms_linear (a : List ℝ) : ℝ := Real.sqrt (meanSquare a)

/-- `np.max(np.abs(audio))`; 0 on the empty list (callers that would hit
numpy's empty-reduction error branch on emptiness first). -/
def maxAbs (a : List ℝ) : ℝ := a.foldr (fun x m => max |x| m) 0

/-- `db_to_linear` of normalize.py: `10 ** (db / 20)`. -/
def db_to_linear (db : ℝ) : ℝ := (10 : ℝ) ^ (db / 20)

/-- `rms_db` of normalize.py: raises `NormalizationError` when the RMS is
zero; on the empty buffer numpy's mean is NaN, the zero test fails and
the function returns NaN without raising. -/
def rms_db (a : List ℝ) : Except PyExn RVal :=
  if a = [] then .ok .nan
  else if rms_linear a = 0 then .error .normalizationError
  else .ok (.fin (20 * Real.logb 10 (rms_linear a)))

/-- `peak_db` of normalize.py: `np.max` raises `ValueError` on an empty
buffer; a zero peak yields `-inf`. -/
def peak_db (a : List ℝ) : Except PyExn RVal :=
  if a = [] then .error .valueError
  else if maxAbs a = 0 then .ok .neginf
  else .ok (.fin (20 * Real.logb 10 (maxAbs a)))

/-- `normalize_rms` of normalize.py over a 1-D buffer: silent input is
returned unchanged; otherwise linear gain toward the target RMS is
applied and, if the resulting peak exceeds the limit, the whole buffer is
scaled down so the peak meets the limit exactly.  On the empty buffer the
silence test fails (NaN RMS) and `np.max` then raises `ValueError`. -/
def normalize_rms (a : List ℝ) (target_db : ℝ) (peak_limit_db : ℝ) :
    Except PyExn (List ℝ) :=
  if a = [] then .error .valueError
  else if rms_linear a = 0 then .ok a
  else
    let current_db := 20 * Real.logb 10 (rms_linear a)
    let gain_linear := db_to_linear (target_db - current_db)
    let normalized := a.map (fun x => x * gain_linear)
    let peak := maxAbs normalized
    let peak_limit := db_to_linear peak_limit_db
    if peak_limit < peak then
      .ok (normalized.map (fun x => x * (peak_limit / peak)))
    else .ok normalized

/- ===================== metrics.py : core ===================== -/

/-- `calculate_rms_dbfs` of metrics.py: `-inf` for zero RMS; NaN (via
numpy's mean) on the empty buffer, without raising. -/
def calculate_rms_dbfs (a : List ℝ) : RVal :=
  if a = [] then .nan
  else if Real.sqrt (meanSquare a) = 0 then .neginf
  else .fin (20 * Real.logb 10 (Real.sqrt (meanSquare a)))

/-- `calculate_peak_dbfs` of metrics.py: `np.max` raises on the empty
buffer; a zero peak yields `-inf`. -/
def calculate_peak_dbfs (a : List ℝ) : Except PyExn RVal :=
  if a = [] then .error .valueError
  else if maxAbs a = 0 then .ok .neginf
  else .ok (.fin (20 * Real.logb 10 (maxAbs a)))

/-- `calculate_crest_factor_db` on the two precomputed levels: zero when
the RMS is `-inf` (`np.isinf`), the difference otherwise; NaN propagates
through the subtraction (`np.isinf(nan)` is false). -/
def calculate_crest_factor_db (r p : RVal) : RVal :=
  match r with
  | .neginf => .fin 0
  | .nan => .nan
  | .fin x =>
    match p with
    | .fin y => .fin (y - x)
    | .neginf => .neginf
    | .nan => .nan

/-- The per-window RMS values of `calculate_dynamic_range_db` (RMS over
consecutive ~50 ms windows, zero-RMS windows excluded). -/
def windowRmsValues (a : List ℝ) (sr : ℕ) : List ℝ :=
  let window_samples := max 1 (sr * 50 / 1000)
  let n_windows := max 1 (a.length / window_samples)
  ((List.range n_windows).map (fun i =>
      Real.sqrt (meanSquare ((a.drop (i * window_samples)).take window_samples)))).filter
    (fun r => 0 < r)

/-- `np.percentile` with the default linear interpolation over the sorted
data (callers guard a list of length at least 2). -/
def npPercentile (a : List ℝ) (q : ℝ) : ℝ :=
  let v := a.insertionSort (· ≤ ·)
  let h : ℝ := ((a.length - 1 : ℕ) : ℝ) * q / 100
  v.getD ⌊h⌋.toNat 0 + (h - ⌊h⌋) * (v.getD ⌈h⌉.toNat 0 - v.getD ⌊h⌋.toNat 0)

/-- `calculate_dynamic_range_db` of metrics.py: `20·log10(p95/p5)` of the
non-silent window RMS values, 0 when fewer than 2 windows survive or the
5th percentile is nonpositive. -/
def calculate_dynamic_range_db (a : List ℝ) (sr : ℕ) : ℝ :=
  let vals := windowRmsValues a sr
  if vals.length < 2 then 0
  else
    let loud := npPercentile vals 95
    let quiet := npPercentile vals 5
    if quiet ≤ 0 then 0 else 20 * Real.logb 10 (loud / quiet)

/- ===================== metrics.py : spectral ===================== -/

/-- Bin `k` of `np.fft.rfft(audio)`. -/
def dftBin (a : List ℝ) (k : ℕ) : ℂ :=
  ∑ j ∈ Finset.range a.length,
    (a.getD j 0 : ℂ) * Complex.exp (-2 * Real.pi * Complex.I * k * j / a.length)

/-- Frequency of rfft bin `k` (`np.fft.rfftfreq(n, 1/sr)`). -/
def binFreq (n : ℕ) (sr : ℕ) (k : ℕ) : ℝ := k * sr / n

/-- Number of rfft bins of an `n`-point signal: `n // 2 + 1`. -/
def rfftBins (n : ℕ) : ℕ := n / 2 + 1

/-- `np.abs(fft)**2` at bin `k`. -/
def powerBin (a : List ℝ) (k : ℕ) : ℝ := Complex.abs (dftBin a k) ^ 2

/-- Power summed over the bass band mask `20 ≤ f < 250`. -/
def bass_energy (a : List ℝ) (sr : ℕ) : ℝ :=
  ∑ k ∈ (Finset.range (rfftBins a.length)).filter
      (fun k => 20 ≤ binFreq a.length sr k ∧ binFreq a.length sr k < 250),
    powerBin a k

/-- Power summed over the mid band mask `250 ≤ f < 2000`. -/
def mid_energy (a : List ℝ) (sr : ℕ) : ℝ :=
  ∑ k ∈ (Finset.range (rfftBins a.length)).filter
      (fun k => 250 ≤ binFreq a.length sr k ∧ binFreq a.length sr k < 2000),
    powerBin a k

/-- Power summed over the treble band mask
`2000 ≤ f ≤ min 20000 (sr/2)`. -/
def treble_energy (a : List ℝ) (sr : ℕ) : ℝ :=
  ∑ k ∈ (Finset.range (rfftBins a.length)).filter
      (fun k => 2000 ≤ binFreq a.length sr k ∧
        binFreq a.length sr k ≤ min 20000 ((sr : ℝ) / 2)),
    powerBin a k

/-- `calculate_band_energy_ratios` of metrics.py: each band power divided
by the three-band total, `(0,0,0)` when the total is 0; `np.fft.rfft`
raises on a zero-length signal. -/
def calculate_band_energy_ratios (a : List ℝ) (sr : ℕ) :
    Except PyExn (ℝ × ℝ × ℝ) :=
  if a = [] then .error .valueError
  else
    let total := bass_energy a sr + mid_energy a sr + treble_energy a sr
    if total = 0 then .ok (0, 0, 0)
    else .ok (bass_energy a sr / total, mid_energy a sr / total,
              treble_energy a sr / total)

/-- `calculate_spectral_centroid_hz` of metrics.py: magnitude-weighted
mean frequency, 0 when the total magnitude is 0. -/
def calculate_spectral_centroid_hz (a : List ℝ) (sr : ℕ) : Except PyExn ℝ :=
  if a = [] then .error .valueError
  else
    let totalMag := ∑ k ∈ Finset.range (rfftBins a.length), Complex.abs (dftBin a k)
    if totalMag = 0 then .ok 0
    else .ok ((∑ k ∈ Finset.range (rfftBins a.length),
        binFreq a.length sr k * Complex.abs (dftBin a k)) / totalMag)

/- ===================== metrics.py : advanced ===================== -/

/-- One normalized (`a0 = 1`) second-order section, as designed by
`scipy.signal.iirfilter(..., output="sos")`; the concrete Butterworth
coefficient values are external to this repository, so theorems quantify
over them. -/
structure SOSSection where
  b0 : ℝ
  b1 : ℝ
  b2 : ℝ
  a1 : ℝ
  a2 : ℝ

/-- One step of `scipy.signal.sosfilt`'s direct-form-II-transposed
recurrence: output sample and next two-element state. -/
def sosStep (c : SOSSection) (st : ℝ × ℝ) (x : ℝ) : ℝ × (ℝ × ℝ) :=
  let y := c.b0 * x + st.1
  (y, (c.b1 * x - c.a1 * y + st.2, c.b2 * x - c.a2 * y))

/-- `sosfilt` for one section over a whole buffer, zero initial state. -/
def sosSectionFilter (c : SOSSection) (a : List ℝ) : List ℝ :=
  (a.foldl (fun acc x =>
      let r := sosStep c acc.2 x
      (acc.1 ++ [r.1], r.2)) (([] : List ℝ), ((0 : ℝ), (0 : ℝ)))).1

/-- `sosfilt` over a cascade of sections. -/
def sosfilt (cs : List SOSSection) (a : List ℝ) : List ℝ :=
  cs.foldl (fun acc c => sosSectionFilter c acc) a

/-- `_apply_k_weighting` of metrics.py, with the three scipy-designed
filters given by their coefficients: shelf and high-pass cascaded, plus a
gently boosted high-passed copy mixed in
(`filtered + (sosfilt(boost, audio) * 0.5) * 0.3`). -/
def apply_k_weighting (shelf hp boost : List SOSSection) (a : List ℝ) : List ℝ :=
  let filtered := sosfilt hp (sosfilt shelf a)
  let boosted := (sosfilt boost a).map (fun x => x * 0.5)
  List.zipWith (fun f b => f + b * 0.3) filtered boosted

/-- `calculate_lufs_integrated` of metrics.py, fallback path (the
contractual formula when `pyloudnorm` is absent):
`-0.691 + 10·log10(mean_square)` of the K-weighted signal, `-inf` when
the mean square is nonpositive; NaN (numpy mean) on the empty buffer. -/
def calculate_lufs_integrated (shelf hp boost : List SOSSection)
    (a : List ℝ) : RVal :=
  if a = [] then .nan
  else
    let weighted := apply_k_weighting shelf hp boost a
    let mean_square := meanSquare weighted
    if mean_square ≤ 0 then .neginf
    else .fin (-0.691 + 10 * Real.logb 10 mean_square)

/-- `np.convolve` mode "full". -/
def fullConv (a v : List ℝ) : List ℝ :=
  (List.range (a.length + v.length - 1)).map (fun k =>
    ∑ i ∈ Finset.range a.length,
      if i ≤ k ∧ k - i < v.length then a.getD i 0 * v.getD (k - i) 0 else 0)

/-- `np.convolve` mode "same": the centered `max` slice of the full
convolution. -/
def sameConv (a v : List ℝ) : List ℝ :=
  ((fullConv a v).drop ((min a.length v.length - 1) / 2)).take
    (max a.length v.length)

/-- Smoothed rectified envelope of `calculate_transient_density`
(≈5 ms boxcar, `np.convolve(..., "same")`). -/
def transientEnvelope (a : List ℝ) (sr : ℕ) : List ℝ :=
  let window_size := max 1 (sr * 5 / 1000)
  sameConv (a.map (fun x => |x|))
    (List.replicate window_size ((window_size : ℝ)⁻¹))

/-- Indices of rising edges (`np.diff(above.astype(int)) == 1`). -/
def risingEdges (above : List Bool) : List ℕ :=
  (List.range (above.length - 1)).filter
    (fun i => above.getD i true = false ∧ above.getD (i + 1) false = true)

/-- Greedy minimum-interval filter over the onset indices. -/
def filterMinInterval (minInt : ℕ) : List ℕ → List ℕ
  | [] => []
  | i :: rest => i :: go i rest
where
  /-- Keep an index only when far enough from the last kept one. -/
  go (last : ℕ) : List ℕ → List ℕ
  | [] => []
  | j :: rest => if minInt ≤ j - last then j :: go j rest else go last rest

/-- `calculate_transient_density` of metrics.py: onsets of the smoothed
envelope above `rms·10^(6/20)`, at least 50 ms apart, divided by the
duration; 0 for zero RMS; `np.convolve` raises on an empty buffer. -/
def calculate_transient_density (a : List ℝ) (sr : ℕ) : Except PyExn ℝ :=
  if a = [] then .error .valueError
  else
    let envelope := transientEnvelope a sr
    let rms := Real.sqrt (meanSquare a)
    if rms = 0 then .ok 0
    else
      let threshold := rms * (10 : ℝ) ^ ((6 : ℝ) / 20)
      let min_interval := sr * 50 / 1000
      let above := envelope.map (fun e => decide (threshold < e))
      match risingEdges above with
      | [] => .ok 0
      | i :: rest =>
        let filtered := filterMinInterval min_interval (i :: rest)
        let duration := (a.length : ℝ) / sr
        if duration = 0 then .ok 0
        else .ok ((filtered.length : ℝ) / duration)

/-- First index of the maximum (`np.argmax`). -/
def npArgmax (l : List ℝ) : ℕ :=
  ((List.range l.length).filter
    (fun i => ∀ j < l.length, l.getD j 0 ≤ l.getD i 0)).headD 0

/-- `calculate_attack_time_ms` of metrics.py: time from the first sample
above `max(3·noise_floor, 1%·peak)` to the first sample above `90%·peak`
(or the argmax as fallback); 0 for a zero peak; `np.max` raises on an
empty buffer. -/
def calculate_attack_time_ms (a : List ℝ) (sr : ℕ) : Except PyExn ℝ :=
  if a = [] then .error .valueError
  else
    let envelope := a.map (fun x => |x|)
    let peak := maxAbs a
    if peak = 0 then .ok 0
    else
      let noise_samples := min (sr / 100) (max 1 (a.length / 100))
      let noise_floor :=
        if 0 < noise_samples then npMean (envelope.take noise_samples) else 0
      let start_threshold := max (noise_floor * 3) (peak * 0.01)
      let peak_threshold := peak * 0.9
      match (List.range envelope.length).filter
          (fun i => start_threshold < envelope.getD i 0) with
      | [] => .ok 0
      | start_idx :: _ =>
        let tailEnv := envelope.drop start_idx
        let peak_idx :=
          match (List.range tailEnv.length).filter
              (fun i => peak_threshold < tailEnv.getD i 0) with
          | [] => npArgmax tailEnv + start_idx
          | j :: _ => j + start_idx
        .ok (((peak_idx - start_idx : ℕ) : ℝ) / sr * 1000)

/-- `np.median`: middle element of the sorted data, or the mean of the
two middle elements. -/
def npMedian (l : List ℝ) : ℝ :=
  let v := l.insertionSort (· ≤ ·)
  if l.length % 2 = 1 then v.getD (l.length / 2) 0
  else (v.getD (l.length / 2 - 1) 0 + v.getD (l.length / 2) 0) / 2

/-- Python `range(0, stop, step)` over naturals (`stop` already clamped
at 0 by natural subtraction at the call site). -/
def pyRange (stop step : ℕ) : List ℕ :=
  (List.range ((stop + step - 1) / step)).map (· * step)

/-- `calculate_sustain_decay_rate_db_s` of metrics.py: median of
per-window dB/s changes of the smoothed envelope after its peak; 0 when
degenerate; `np.argmax` raises on an empty buffer. -/
def calculate_sustain_decay_rate_db_s (a : List ℝ) (sr : ℕ) :
    Except PyExn ℝ :=
  if a = [] then .error .valueError
  else
    let window_samples := max 1 (sr / 100)
    let envelope := sameConv (a.map (fun x => |x|))
      (List.replicate window_samples ((window_samples : ℝ)⁻¹))
    let peak_idx := npArgmax envelope
    let peak_value := envelope.getD peak_idx 0
    if peak_value = 0 then .ok 0
    else
      let decay := envelope.drop peak_idx
      if decay.length < 2 then .ok 0
      else
        let w := max 2 (sr * 100 / 1000)
        let rates := (pyRange (decay.length - w) w).filterMap (fun i =>
          let start_amp := npMean ((decay.drop i).take (w / 2))
          let end_amp := npMean ((decay.drop (i + w / 2)).take (w - w / 2))
          if 0 < start_amp ∧ 0 < end_amp then
            let db_change := 20 * Real.logb 10 (end_amp / start_amp)
            let time_s := (w : ℝ) / 2 / sr
            if 0 < time_s then some (db_change / time_s) else none
          else none)
        if rates = [] then .ok 0
        else .ok (npMedian rates)

/- ===================== metrics.py : extraction ===================== -/

/-- The `CoreMetrics` record. -/
structure CoreMetrics where
  rms_dbfs : RVal
  peak_dbfs : RVal
  crest_factor_db : RVal
  dynamic_range_db : ℝ

/-- The `SpectralMetrics` record. -/
structure SpectralMetrics where
  spectral_centroid_hz : ℝ
  bass_energy_ratio : ℝ
  mid_energy_ratio : ℝ
  treble_energy_ratio : ℝ

/-- The `AdvancedMetrics` record. -/
structure AdvancedMetrics where
  lufs_integrated : RVal
  transient_density : ℝ
  attack_time_ms : ℝ
  sustain_decay_rate_db_s : ℝ

/-- The `AudioMetrics` record. -/
structure AudioMetrics where
  duration_seconds : ℝ
  sample_rate : ℕ
  core : CoreMetrics
  spectral : SpectralMetrics
  advanced : AdvancedMetrics

/-- `extract_core_metrics` of metrics.py. -/
def extract_core_metrics (a : List ℝ) (sr : ℕ) : Except PyExn CoreMetrics :=
  match calculate_peak_dbfs a with
  | .error e => .error e
  | .ok p =>
    let r := calculate_rms_dbfs a
    .ok { rms_dbfs := r, peak_dbfs := p,
          crest_factor_db := calculate_crest_factor_db r p,
          dynamic_range_db := calculate_dynamic_range_db a sr }

/-- `extract_spectral_metrics` of metrics.py. -/
def extract_spectral_metrics (a : List ℝ) (sr : ℕ) :
    Except PyExn SpectralMetrics :=
  match calculate_spectral_centroid_hz a sr with
  | .error e => .error e
  | .ok c =>
    match calculate_band_energy_ratios a sr with
    | .error e => .error e
    | .ok bmt =>
      .ok { spectral_centroid_hz := c, bass_energy_ratio := bmt.1,
            mid_energy_ratio := bmt.2.1, treble_energy_ratio := bmt.2.2 }

/-- `extract_advanced_metrics` of metrics.py (K-weighting coefficients
passed through to the LUFS fallback). -/
def extract_advanced_metrics (shelf hp boost : List SOSSection)
    (a : List ℝ) (sr : ℕ) : Except PyExn AdvancedMetrics :=
  let lufs := calculate_lufs_integrated shelf hp boost a
  match calculate_transient_density a sr with
  | .error e => .error e
  | .ok td =>
    match calculate_attack_time_ms a sr with
    | .error e => .error e
    | .ok at_ms =>
      match calculate_sustain_decay_rate_db_s a sr with
      | .error e => .error e
      | .ok sd =>
        .ok { lufs_integrated := lufs, transient_density := td,
              attack_time_ms := at_ms, sustain_decay_rate_db_s := sd }

/-- `extract_metrics` of metrics.py on an already 1-D buffer. -/
def extract_metrics (shelf hp boost : List SOSSection) (a : List ℝ)
    (sr : ℕ) : Except PyExn AudioMetrics :=
  match extract_core_metrics a sr with
  | .error e => .error e
  | .ok core =>
    match extract_spectral_metrics a sr with
    | .error e => .error e
    | .ok spectral =>
      match extract_advanced_metrics shelf hp boost a sr with
      | .error e => .error e
      | .ok advanced =>
        .ok { duration_seconds := (a.length : ℝ) / sr, sample_rate := sr,
              core := core, spectral := spectral, advanced := advanced }

/-- `extract_metrics` on multi-channel (2-D) input: the source runs
`audio = audio.flatten()` (row-major concatenation of all channels)
before anything else. -/
def extract_metrics_2d (shelf hp boost : List SOSSection)
    (channels : List (List ℝ)) (sr : ℕ) : Except PyExn AudioMetrics :=
  extract_metrics shelf hp boost channels.flatten sr

/-- Channel 0 of a 2-D buffer (`audio[0]`, the repo's capture
convention in audio.py). -/
def channel0 (channels : List (List ℝ)) : List ℝ := channels.headD []

end


/- ===================== theorems: C4 ===================== -/

/-- Helper: one `add_segment` call preserves the tracker invariants
(first segment at 0, contiguous chain, `end = start + duration`, offset
equal to the duration sum and to the last `end_ms`). -/
theorem segTracker_add_preserves (t : SegmentTracker) (arg : AddSegmentArg)
    (d : SegmentTimestamps)
    (h1 : 0 < t.segments.length → (t.segments.getD 0 d).start_ms = 0)
    (h2 : ∀ i, i + 1 < t.segments.length →
      (t.segments.getD (i + 1) d).start_ms = (t.segments.getD i d).end_ms)
    (h3 : ∀ s ∈ t.segments, s.end_ms = s.start_ms + s.duration_ms)
    (h4 : t.current_offset_ms = (t.segments.map (fun s => s.duration_ms)).sum)
    (h5 : ∀ s, t.segments.getLast? = some s → s.end_ms = t.current_offset_ms) :
    (0 < (t.add_segment arg).segments.length →
      ((t.add_segment arg).segments.getD 0 d).start_ms = 0) ∧
    (∀ i, i + 1 < (t.add_segment arg).segments.length →
      ((t.add_segment arg).segments.getD (i + 1) d).start_ms =
        ((t.add_segment arg).segments.getD i d).end_ms) ∧
    (∀ s ∈ (t.add_segment arg).segments,
      s.end_ms = s.start_ms + s.duration_ms) ∧
    (t.add_segment arg).current_offset_ms =
      ((t.add_segment arg).segments.map (fun s => s.duration_ms)).sum ∧
    (∀ s, (t.add_segment arg).segments.getLast? = some s →
      s.end_ms = (t.add_segment arg).current_offset_ms) := by
  set ts : SegmentTimestamps :=
    match arg with
    | .samples dur start =>
        SegmentTimestamps.from_samples t.segments.length start (start + dur)
          t.sample_rate t.current_offset_ms
    | .ms dur =>
        SegmentTimestamps.from_duration_ms t.segments.length dur
          t.sample_rate t.current_offset_ms
    with hts
  have hsegs : (t.add_segment arg).segments = t.segments ++ [ts] := by
    cases arg <;> rfl
  have hoff : (t.add_segment arg).current_offset_ms = ts.end_ms := by
    cases arg <;> rfl
  have hstart : ts.start_ms = t.current_offset_ms := by
    cases arg <;> simp [hts, SegmentTimestamps.from_samples,
      SegmentTimestamps.from_duration_ms]
  have hdur : ts.end_ms = ts.start_ms + ts.duration_ms := by
    cases arg <;> simp [hts, SegmentTimestamps.from_samples,
      SegmentTimestamps.from_duration_ms]
  refine ⟨?_, ?_, ?_, ?_, ?_⟩
  · intro _
    rcases Nat.eq_zero_or_pos t.segments.length with hz | hp
    · have hnil : t.segments = [] := List.length_eq_zero.mp hz
      rw [hsegs, hnil, List.nil_append]
      show ts.start_ms = 0
      rw [hstart, h4, hnil]
      rfl
    · rw [hsegs, List.getD_append _ _ _ _ hp]
      exact h1 hp
  · intro i h
    have hlen : (t.add_segment arg).segments.length = t.segments.length + 1 := by
      rw [hsegs]; simp
    rcases Nat.lt_or_ge (i + 1) t.segments.length with hlt | hge
    · rw [hsegs, List.getD_append _ _ _ _ hlt,
        List.getD_append _ _ _ _ (Nat.lt_of_succ_lt hlt)]
      exact h2 i hlt
    · have hi1 : i + 1 = t.segments.length := by omega
      have hilt : i < t.segments.length := by omega
      have e1 : (t.add_segment arg).segments.getD (i + 1) d = ts := by
        rw [hsegs, List.getD_append_right _ _ _ _ (by omega), hi1]
        simp [List.getD]
      have e2 : (t.add_segment arg).segments.getD i d =
          t.segments.getD i d := by
        rw [hsegs, List.getD_append _ _ _ _ hilt]
      rw [e1, e2, hstart]
      have hne : t.segments ≠ [] := by
        intro hnil; rw [hnil] at hi1; simp at hi1
      have hlast : t.segments.getLast? = some (t.segments.getD i d) := by
        have hi : i = t.segments.length - 1 := by omega
        subst hi
        rw [List.getLast?_eq_getLast _ hne, List.getLast_eq_getElem]
        rw [List.getD_eq_getElem _ _ (by omega)]
      exact (h5 _ hlast).symm
  · intro s hs
    rw [hsegs] at hs
    rcases List.mem_append.mp hs with hmem | hmem
    · exact h3 s hmem
    · have : s = ts := by simpa using hmem
      rw [this]; exact hdur
  · rw [hoff, hdur, hstart, h4, hsegs]
    simp
  · intro s hs
    rw [hsegs, List.getLast?_append] at hs
    simp at hs
    rw [← hs, hoff]

/-- Helper: the tracker invariants hold after any sequence of
`add_segment` calls from any state satisfying them. -/
theorem segTracker_run_inv (args : List AddSegmentArg) (t : SegmentTracker)
    (d : SegmentTimestamps)
    (h1 : 0 < t.segments.length → (t.segments.getD 0 d).start_ms = 0)
    (h2 : ∀ i, i + 1 < t.segments.length →
      (t.segments.getD (i + 1) d).start_ms = (t.segments.getD i d).end_ms)
    (h3 : ∀ s ∈ t.segments, s.end_ms = s.start_ms + s.duration_ms)
    (h4 : t.current_offset_ms = (t.segments.map (fun s => s.duration_ms)).sum)
    (h5 : ∀ s, t.segments.getLast? = some s → s.end_ms = t.current_offset_ms) :
    let t' := args.foldl SegmentTracker.add_segment t
    (0 < t'.segments.length → (t'.segments.getD 0 d).start_ms = 0) ∧
    (∀ i, i + 1 < t'.segments.length →
      (t'.segments.getD (i + 1) d).start_ms = (t'.segments.getD i d).end_ms) ∧
    (∀ s ∈ t'.segments, s.end_ms = s.start_ms + s.duration_ms) ∧
    t'.current_offset_ms = (t'.segments.map (fun s => s.duration_ms)).sum ∧
    (∀ s, t'.segments.getLast? = some s → s.end_ms = t'.current_offset_ms) := by
  induction args generalizing t with
  | nil => exact ⟨h1, h2, h3, h4, h5⟩
  | cons a rest ih =>
    obtain ⟨g1, g2, g3, g4, g5⟩ := segTracker_add_preserves t a d h1 h2 h3 h4 h5
    exact ih (t.add_segment a) g1 g2 g3 g4 g5

/-- C4: within one SegmentTracker instance, the first segment starts at
0, each segment's `start_ms` equals the previous segment's `end_ms`, each
segment's `end_ms` equals its `start_ms` plus its `duration_ms`, and
`total_duration_ms` equals the last segment's `end_ms` (equivalently, the
sum of all durations); adding 1000 ms, 2000 ms and 1500 ms segments gives
timestamps `(0,1000)`, `(1000,3000)`, `(3000,4500)` and
`total_duration_ms = 4500`. -/
theorem c4_segment_tracker_invariants :
    (∀ (sr : ℕ) (args : List AddSegmentArg) (d : SegmentTimestamps),
      let t := SegmentTracker.run sr args
      (0 < t.segments.length → (t.segments.getD 0 d).start_ms = 0) ∧
      (∀ i, i + 1 < t.segments.length →
        (t.segments.getD (i + 1) d).start_ms = (t.segments.getD i d).end_ms) ∧
      (∀ s ∈ t.segments, s.end_ms = s.start_ms + s.duration_ms) ∧
      (∀ s, t.segments.getLast? = some s → t.total_duration_ms = s.end_ms) ∧
      t.total_duration_ms = (t.segments.map (fun s => s.duration_ms)).sum) ∧
    (SegmentTracker.run 48000 [.ms 1000, .ms 2000, .ms 1500]).segments.map
        (fun s => (s.start_ms, s.end_ms)) =
      [(0, 1000), (1000, 3000), (3000, 4500)] ∧
    (SegmentTracker.run 48000 [.ms 1000, .ms 2000, .ms 1500]).total_duration_ms
      = 4500 := by
  refine ⟨?_, by decide, by decide⟩
  intro sr args d
  obtain ⟨g1, g2, g3, g4, g5⟩ := segTracker_run_inv args (SegmentTracker.new sr) d
    (by intro h; simp [SegmentTracker.new] at h)
    (by intro i h; simp [SegmentTracker.new] at h)
    (by intro s hs; simp [SegmentTracker.new] at hs)
    (by simp [SegmentTracker.new])
    (by intro s hs; simp [SegmentTracker.new] at hs)
  refine ⟨g1, g2, g3, ?_, ?_⟩
  · intro s hs
    show SegmentTracker.total_duration_ms _ = _
    unfold SegmentTracker.total_duration_ms
    rw [hs]
  · show SegmentTracker.total_duration_ms _ = _
    unfold SegmentTracker.total_duration_ms
    rcases hlast : (SegmentTracker.run sr args).segments.getLast? with _ | s
    · have hnil : (SegmentTracker.run sr args).segments = [] :=
        List.getLast?_eq_none_iff.mp hlast
      rw [hnil]
      rfl
    · show s.end_ms = _
      rw [g5 s hlast]
      exact g4

/-- Witness for C4: the chain invariant applied to a concrete two-call
sequence. -/
theorem c4_segment_tracker_invariants_witness :
    ((SegmentTracker.run 44100 [.samples 100 0, .ms 50]).segments.getD 1
        ⟨0, 0, 0, 0, 0, 0, 0⟩).start_ms =
      ((SegmentTracker.run 44100 [.samples 100 0, .ms 50]).segments.getD 0
        ⟨0, 0, 0, 0, 0, 0, 0⟩).end_ms :=
  (c4_segment_tracker_invariants.1 44100 [.samples 100 0, .ms 50]
    ⟨0, 0, 0, 0, 0, 0, 0⟩).2.1 0 (by decide)

/- ===================== theorems: C5 ===================== -/

/-- Helper: the middle chunk of a three-part concatenation, recovered by
`drop` and `take` at the correct offsets. -/
theorem drop_take_of_append (l₁ l₂ l₃ : List ℕ) (n m : ℕ)
    (h₁ : l₁.length = n) (h₂ : l₂.length = m) :
    ((l₁ ++ l₂ ++ l₃).drop n).take m = l₂ := by
  rw [List.append_assoc, List.drop_left' h₁, List.take_left' h₂]

/-- C5 counterexample: an empty payload string (the default `ir_path`)
is encoded by the source as a 4-byte zero length with no bytes and no
NUL terminator, not as the claimed
length-of-(bytes + 1 NUL) + bytes + NUL encoding; hence the component
state generated for a concrete model path with empty IR path differs
from the byte layout the claim mandates for the same inputs. -/
theorem c5_preset_counterexample :
    put_string [] ≠ put_string_spec [] ∧
    create_nam_state [97] [] [49]
        (some (List.replicate 12 (0 : Fin (2 ^ 64)))) =
      .ok (put_string NAM_MARKER ++ put_string [49] ++
           put_string [97] ++ put_string [] ++
           ((List.replicate 12 (0 : Fin (2 ^ 64))).map
             (fun p => u64le p.val)).flatten) ∧
    put_string NAM_MARKER ++ put_string [49] ++
        put_string [97] ++ put_string [] ++
        ((List.replicate 12 (0 : Fin (2 ^ 64))).map
          (fun p => u64le p.val)).flatten ≠
      put_string_spec NAM_MARKER ++ put_string_spec [49] ++
        put_string_spec [97] ++ put_string_spec [] ++
        ((List.replicate 12 (0 : Fin (2 ^ 64))).map
          (fun p => u64le p.val)).flatten := by
  refine ⟨by decide, rfl, by decide⟩

/-- C5 (amended): for every 32-character class id and 12-element
parameter vector the preset starts with the magic, bytes 4–8 decode as
little-endian 1, bytes 8–40 are the class id, bytes 40–48 decode as 48
plus the payload length, and the payload is the four `_put_string`
fields followed by exactly twelve 8-byte little-endian doubles, where
every NON-EMPTY string is encoded as the 4-byte little-endian length of
(UTF-8 bytes + 1 NUL) followed by the bytes and a trailing NUL (an
empty string is encoded as a zero length with no bytes); a parameter
vector whose length is not 12, or a class id not exactly 32 characters,
is rejected with a preset error. -/
theorem c5_preset_format (class_id nam ir version : List ℕ)
    (params : List (Fin (2 ^ 64)))
    (hc : class_id.length = 32) (hp : params.length = 12) :
    ∃ state preset,
      create_nam_state nam ir version (some params) = .ok state ∧
      state = put_string NAM_MARKER ++ put_string version ++
        put_string nam ++ put_string ir ++
        (params.map (fun p => u64le p.val)).flatten ∧
      create_vst3_preset class_id state = .ok preset ∧
      preset.take 4 = strBytes "VST3" ∧
      (preset.drop 4).take 4 = u32le 1 ∧
      (preset.drop 8).take 32 = class_id ∧
      (preset.drop 40).take 8 = u64le (48 + state.length) ∧
      (preset.drop 48).take state.length = state ∧
      (∀ s : List ℕ, s ≠ [] → put_string s = put_string_spec s) ∧
      (∀ ps : List (Fin (2 ^ 64)), ps.length ≠ 12 →
        create_nam_state nam ir version (some ps) =
          .error (.wrongParamCount ps.length)) ∧
      (∀ cid : List ℕ, cid.length ≠ 32 →
        create_vst3_preset cid state = .error (.badClassId cid.length)) := by
  refine ⟨put_string NAM_MARKER ++ put_string version ++
      put_string nam ++ put_string ir ++
      (params.map (fun p => u64le p.val)).flatten,
    strBytes "VST3" ++ u32le 1 ++ class_id ++
      u64le (48 + (put_string NAM_MARKER ++ put_string version ++
        put_string nam ++ put_string ir ++
        (params.map (fun p => u64le p.val)).flatten).length) ++
      (put_string NAM_MARKER ++ put_string version ++
        put_string nam ++ put_string ir ++
        (params.map (fun p => u64le p.val)).flatten) ++
      (strBytes "List" ++ u32le 1 ++ strBytes "Comp" ++ u64le 48 ++
        u64le (put_string NAM_MARKER ++ put_string version ++
          put_string nam ++ put_string ir ++
          (params.map (fun p => u64le p.val)).flatten).length),
    ?_, rfl, ?_, ?_, ?_, ?_, ?_, ?_, ?_, ?_, ?_⟩
  · unfold create_nam_state
    simp [hp]
  · unfold create_vst3_preset
    simp [hc]
  · simp only [List.append_assoc]
    exact List.take_left' rfl
  · simp only [List.append_assoc]
    rw [List.drop_left' (show (strBytes "VST3").length = 4 from rfl)]
    exact List.take_left' rfl
  · simp only [List.append_assoc]
    rw [← List.append_assoc (strBytes "VST3") (u32le 1)]
    rw [List.drop_left' (show (strBytes "VST3" ++ u32le 1).length = 8 from rfl)]
    exact List.take_left' hc
  · simp only [List.append_assoc]
    rw [← List.append_assoc (strBytes "VST3") (u32le 1),
      ← List.append_assoc (strBytes "VST3" ++ u32le 1) class_id]
    rw [List.drop_left'
      (show (strBytes "VST3" ++ u32le 1 ++ class_id).length = 40 by
        simp [hc]; decide)]
    exact List.take_left' rfl
  · generalize (put_string NAM_MARKER ++ put_string version ++
      put_string nam ++ put_string ir ++
      (params.map (fun p => u64le p.val)).flatten) = S
    simp only [List.append_assoc]
    rw [← List.append_assoc (strBytes "VST3") (u32le 1),
      ← List.append_assoc (strBytes "VST3" ++ u32le 1) class_id,
      ← List.append_assoc (strBytes "VST3" ++ u32le 1 ++ class_id) (u64le _)]
    rw [List.drop_left'
      (show (strBytes "VST3" ++ u32le 1 ++ class_id ++ u64le _).length = 48 by
        simp [hc, u64le]; decide)]
    exact List.take_left' rfl
  · intro s hs
    unfold put_string put_string_spec
    simp [hs]
  · intro ps hps
    unfold create_nam_state
    simp [hps]
  · intro cid hcid
    unfold create_vst3_preset
    simp [hcid]

/-- Witness for C5: the format theorem applied to the NAM class id, a
one-byte model path, a one-byte IR path and the twelve-zero parameter
vector. -/
theorem c5_preset_format_witness :
    ∃ state preset,
      create_nam_state [97] [98] [49]
          (some (List.replicate 12 (0 : Fin (2 ^ 64)))) = .ok state ∧
      state = put_string NAM_MARKER ++ put_string [49] ++
        put_string [97] ++ put_string [98] ++
        ((List.replicate 12 (0 : Fin (2 ^ 64))).map
          (fun p => u64le p.val)).flatten ∧
      create_vst3_preset NAM_CLASS_ID state = .ok preset ∧
      preset.take 4 = strBytes "VST3" ∧
      (preset.drop 4).take 4 = u32le 1 ∧
      (preset.drop 8).take 32 = NAM_CLASS_ID ∧
      (preset.drop 40).take 8 = u64le (48 + state.length) ∧
      (preset.drop 48).take state.length = state ∧
      (∀ s : List ℕ, s ≠ [] → put_string s = put_string_spec s) ∧
      (∀ ps : List (Fin (2 ^ 64)), ps.length ≠ 12 →
        create_nam_state [97] [98] [49] (some ps) =
          .error (.wrongParamCount ps.length)) ∧
      (∀ cid : List ℕ, cid.length ≠ 32 →
        create_vst3_preset cid state = .error (.badClassId cid.length)) :=
  c5_preset_format NAM_CLASS_ID [97] [98] [49]
    (List.replicate 12 (0 : Fin (2 ^ 64))) (by decide) (by decide)

/- ===================== theorems: C7 ===================== -/

/-- C7 counterexample: an empty chain string, and a
whitespace/comma-only chain string, parse successfully to an empty
effect list instead of failing with a `ValidationError`, and
`_load_signal_chains` constructs a `SignalChain` with zero effects from
such a chain without raising. -/
theorem c7_empty_chain_counterexample :
    parse_chain "".toList = .ok [] ∧
    parse_chain " , , ".toList = .ok [] ∧
    load_signal_chains [("1.name".toList, "X".toList),
                        ("1.chain".toList, " ".toList)] =
      .ok [⟨"X".toList, [], []⟩] :=
  ⟨rfl, rfl, rfl⟩

/-- Helper: `_parse_chain`'s loop returns the empty effect list when
every part strips to the empty string. -/
theorem parseParts_all_blank (parts : List (List Char))
    (h : ∀ p ∈ parts, pyStrip p = []) : parseParts parts = .ok [] := by
  induction parts with
  | nil => rfl
  | cons raw rest ih =>
    unfold parseParts
    rw [h raw (List.mem_cons_self raw rest)]
    simp only [if_pos rfl]
    exact ih (fun p hp => h p (List.mem_cons_of_mem raw hp))

/-- C7 (amended): a chain description all of whose comma-separated parts
strip to the empty string (in particular the empty string and
whitespace/comma-only strings) parses successfully to an empty effect
list — no `ValidationError` is raised — so a successfully parsed
`SignalChain` may contain zero effects. -/
theorem c7_empty_chain_parses_ok (s : List Char)
    (h : ∀ p ∈ s.splitOn ',', pyStrip p = []) :
    parse_chain s = .ok [] :=
  parseParts_all_blank (s.splitOn ',') h

/-- Witness for C7: the amended theorem applied to a concrete
whitespace/comma-only chain string. -/
theorem c7_empty_chain_parses_ok_witness :
    parse_chain "  ,  ".toList = .ok [] :=
  c7_empty_chain_parses_ok "  ,  ".toList (by decide)

/- ===================== theorems: level helpers ===================== -/

/-- Helper: a sum of squares over a list vanishes iff every element does. -/
theorem list_sum_sq_eq_zero_iff (l : List ℝ) :
    (l.map (fun x => x ^ 2)).sum = 0 ↔ ∀ x ∈ l, x = 0 := by
  induction l with
  | nil => simp
  | cons x xs ih =>
    simp only [List.map_cons, List.sum_cons, List.mem_cons]
    constructor
    · intro h
      have hx : 0 ≤ x ^ 2 := sq_nonneg x
      have hxs : 0 ≤ (xs.map (fun x => x ^ 2)).sum :=
        List.sum_nonneg (by
          intro y hy
          obtain ⟨z, _, rfl⟩ := List.mem_map.mp hy
          exact sq_nonneg z)
      have h1 : x ^ 2 = 0 := by nlinarith
      have h2 : (xs.map (fun x => x ^ 2)).sum = 0 := by nlinarith
      intro y hy
      rcases hy with rfl | hy
      · exact sq_eq_zero_iff.mp h1
      · exact ih.mp h2 y hy
    · intro h
      have hx : x = 0 := h x (Or.inl rfl)
      have hxs : (xs.map (fun x => x ^ 2)).sum = 0 :=
        ih.mpr (fun y hy => h y (Or.inr hy))
      rw [hx, hxs]
      norm_num

/-- Helper: the mean square of a buffer is nonnegative. -/
theorem meanSquare_nonneg (a : List ℝ) : 0 ≤ meanSquare a := by
  unfold meanSquare npMean
  apply div_nonneg
  · exact List.sum_nonneg (by
      intro y hy
      obtain ⟨z, _, rfl⟩ := List.mem_map.mp hy
      exact sq_nonneg z)
  · exact Nat.cast_nonneg _

/-- Helper: on a nonempty buffer the mean square vanishes iff the buffer
is all-zero. -/
theorem meanSquare_eq_zero_iff (a : List ℝ) (ha : a ≠ []) :
    meanSquare a = 0 ↔ ∀ x ∈ a, x = 0 := by
  unfold meanSquare npMean
  have hlen : (0 : ℝ) < (a.map (fun x => x ^ 2)).length := by
    have := List.length_pos.mpr ha
    rw [List.length_map]
    exact_mod_cast this
  rw [div_eq_zero_iff]
  constructor
  · intro h
    rcases h with h | h
    · exact (list_sum_sq_eq_zero_iff a).mp h
    · exact absurd h hlen.ne'
  · intro h
    exact Or.inl ((list_sum_sq_eq_zero_iff a).mpr h)

/-- Helper: the linear RMS is nonnegative. -/
theorem rms_linear_nonneg (a : List ℝ) : 0 ≤ rms_linear a :=
  Real.sqrt_nonneg _

/-- Helper: on a nonempty buffer the linear RMS vanishes iff the buffer
is all-zero. -/
theorem rms_linear_eq_zero_iff (a : List ℝ) (ha : a ≠ []) :
    rms_linear a = 0 ↔ ∀ x ∈ a, x = 0 := by
  unfold rms_linear
  rw [Real.sqrt_eq_zero (meanSquare_nonneg a)]
  exact meanSquare_eq_zero_iff a ha

/-- Helper: the peak is nonnegative. -/
theorem maxAbs_nonneg (a : List ℝ) : 0 ≤ maxAbs a := by
  induction a with
  | nil => exact le_refl 0
  | cons x xs ih =>
    unfold maxAbs at ih ⊢
    simp only [List.foldr_cons]
    exact le_trans ih (le_max_right _ _)

/-- Helper: every sample is bounded by the peak in absolute value. -/
theorem abs_le_maxAbs (a : List ℝ) (x : ℝ) (hx : x ∈ a) :
    |x| ≤ maxAbs a := by
  induction a with
  | nil => cases hx
  | cons y ys ih =>
    unfold maxAbs at ih ⊢
    simp only [List.foldr_cons]
    rcases List.mem_cons.mp hx with rfl | hmem
    · exact le_max_left _ _
    · exact le_trans (ih hmem) (le_max_right _ _)

/-- Helper: the peak vanishes iff the buffer is all-zero. -/
theorem maxAbs_eq_zero_iff (a : List ℝ) :
    maxAbs a = 0 ↔ ∀ x ∈ a, x = 0 := by
  constructor
  · intro h x hx
    have h1 := abs_le_maxAbs a x hx
    rw [h] at h1
    exact abs_eq_zero.mp (le_antisymm h1 (abs_nonneg x))
  · intro h
    induction a with
    | nil => rfl
    | cons y ys ih =>
      unfold maxAbs
      simp only [List.foldr_cons]
      have hy : y = 0 := h y (List.mem_cons_self y ys)
      have hys : maxAbs ys = 0 := ih (fun x hx => h x (List.mem_cons_of_mem y hx))
      unfold maxAbs at hys
      rw [hy, hys, abs_zero, max_self]

/-- Helper: the peak scales with a nonnegative gain. -/
theorem maxAbs_map_mul (a : List ℝ) (c : ℝ) (hc : 0 ≤ c) :
    maxAbs (a.map (fun x => x * c)) = maxAbs a * c := by
  induction a with
  | nil =>
    show (0 : ℝ) = 0 * c
    rw [zero_mul]
  | cons x xs ih =>
    unfold maxAbs at ih ⊢
    simp only [List.map_cons, List.foldr_cons]
    rw [ih, abs_mul, abs_of_nonneg hc, max_mul_of_nonneg _ _ hc]

/-- Helper: the mean square scales with the square of the gain. -/
theorem meanSquare_map_mul (a : List ℝ) (c : ℝ) :
    meanSquare (a.map (fun x => x * c)) = meanSquare a * c ^ 2 := by
  unfold meanSquare npMean
  rw [List.map_map, List.length_map]
  have : ((fun x => x ^ 2) ∘ fun x => x * c) = fun x => x ^ 2 * c ^ 2 := by
    funext x
    simp [mul_pow]
  have hsum : (a.map (fun x => x ^ 2 * c ^ 2)).sum =
      (a.map (fun x => x ^ 2)).sum * c ^ 2 := by
    induction a with
    | nil => simp
    | cons y ys ihy =>
      simp only [List.map_cons, List.sum_cons, ihy]
      ring
  rw [this, hsum]
  simp only [List.length_map]
  ring

/-- Helper: the linear RMS scales with a nonnegative gain. -/
theorem rms_linear_map_mul (a : List ℝ) (c : ℝ) (hc : 0 ≤ c) :
    rms_linear (a.map (fun x => x * c)) = rms_linear a * c := by
  unfold rms_linear
  rw [meanSquare_map_mul, Real.sqrt_mul (meanSquare_nonneg a),
    Real.sqrt_sq hc]

/-- Helper: `db_to_linear` is always positive. -/
theorem db_to_linear_pos (x : ℝ) : 0 < db_to_linear x :=
  Real.rpow_pos_of_pos (by norm_num) _

/-- Helper: `20·log10` inverts `db_to_linear`. -/
theorem logb_db_to_linear (x : ℝ) :
    20 * Real.logb 10 (db_to_linear x) = x := by
  unfold db_to_linear
  rw [Real.logb_rpow (by norm_num) (by norm_num)]
  ring

/-- Helper: the gain factor computed by `normalize_rms` equals the
target linear RMS divided by the current linear RMS. -/
theorem gain_formula (t m : ℝ) (hm : 0 < m) :
    db_to_linear (t - 20 * Real.logb 10 m) = db_to_linear t / m := by
  unfold db_to_linear
  rw [sub_div, Real.rpow_sub (by norm_num)]
  congr 1
  rw [show (20 : ℝ) * Real.logb 10 m / 20 = Real.logb 10 m by ring]
  exact Real.rpow_logb (by norm_num) (by norm_num) hm

/- ===================== theorems: C1 ===================== -/

/-- C1 counterexample: on the all-zero one-sample buffer `rms_db` raises
`NormalizationError` instead of returning `-inf`, and on the empty
buffer `peak_db` raises `ValueError` (numpy's empty reduction) instead
of never raising. -/
theorem c1_db_meters_counterexample :
    rms_db [0] = .error .normalizationError ∧
    peak_db [] = .error .valueError := by
  constructor
  · unfold rms_db
    rw [if_neg (by simp)]
    rw [if_pos ((rms_linear_eq_zero_iff [0] (by simp)).mpr (by simp))]
  · unfold peak_db
    rw [if_pos rfl]

/-- C1 (amended): on every nonempty buffer neither meter divides by
zero: `peak_db` never raises and returns `-inf` exactly when the maximum
absolute sample is 0, while `rms_db` raises `NormalizationError` exactly
on all-zero input (instead of returning `-inf`) and returns a finite
value on non-silent input. -/
theorem c1_db_meters (a : List ℝ) (ha : a ≠ []) :
    ((∀ x ∈ a, x = 0) →
      rms_db a = .error .normalizationError ∧ peak_db a = .ok .neginf) ∧
    ((∃ x ∈ a, x ≠ 0) →
      rms_db a = .ok (.fin (20 * Real.logb 10 (rms_linear a))) ∧
      peak_db a = .ok (.fin (20 * Real.logb 10 (maxAbs a)))) := by
  constructor
  · intro h
    constructor
    · unfold rms_db
      rw [if_neg ha, if_pos ((rms_linear_eq_zero_iff a ha).mpr h)]
    · unfold peak_db
      rw [if_neg ha, if_pos ((maxAbs_eq_zero_iff a).mpr h)]
  · intro h
    have hrms : rms_linear a ≠ 0 := by
      intro h0
      obtain ⟨x, hx, hxne⟩ := h
      exact hxne ((rms_linear_eq_zero_iff a ha).mp h0 x hx)
    have hpk : maxAbs a ≠ 0 := by
      intro h0
      obtain ⟨x, hx, hxne⟩ := h
      exact hxne ((maxAbs_eq_zero_iff a).mp h0 x hx)
    constructor
    · unfold rms_db
      rw [if_neg ha, if_neg hrms]
    · unfold peak_db
      rw [if_neg ha, if_neg hpk]

/-- Witness for C1: the amended theorem applied to the buffers `[0]`
(silent) and `[1]` (non-silent). -/
theorem c1_db_meters_witness :
    (rms_db [0] = .error .normalizationError ∧ peak_db [0] = .ok .neginf) ∧
    (rms_db [1] = .ok (.fin (20 * Real.logb 10 (rms_linear [1]))) ∧
      peak_db [1] = .ok (.fin (20 * Real.logb 10 (maxAbs [1])))) :=
  ⟨(c1_db_meters [0] (by simp)).1 (by simp),
   (c1_db_meters [1] (by simp)).2 ⟨1, by simp⟩⟩

/- ===================== theorems: C2 ===================== -/

/-- C2 (amended): on every nonempty buffer, `normalize_rms` returns
all-zero input unchanged; on non-silent input it returns a buffer whose
peak never exceeds the linear peak limit — when the post-gain peak is
within the limit the result is exactly the gained buffer and its RMS
level is exactly the target (so certainly within 0.5 dB), and when the
limiter engages the returned peak equals the limit exactly (the RMS then
lands below the target, see the counterexample). -/
theorem c2_normalize_rms (a : List ℝ) (t l : ℝ) (ha : a ≠ []) :
    ((∀ x ∈ a, x = 0) → normalize_rms a t l = .ok a) ∧
    ((∃ x ∈ a, x ≠ 0) →
      ∃ y, normalize_rms a t l = .ok y ∧
        maxAbs y ≤ db_to_linear l ∧
        (maxAbs (a.map (fun x => x *
            db_to_linear (t - 20 * Real.logb 10 (rms_linear a)))) ≤
              db_to_linear l →
          y = a.map (fun x => x *
            db_to_linear (t - 20 * Real.logb 10 (rms_linear a))) ∧
          20 * Real.logb 10 (rms_linear y) = t ∧
          |20 * Real.logb 10 (rms_linear y) - t| ≤ 0.5) ∧
        (db_to_linear l < maxAbs (a.map (fun x => x *
            db_to_linear (t - 20 * Real.logb 10 (rms_linear a)))) →
          maxAbs y = db_to_linear l)) := by
  constructor
  · intro h
    unfold normalize_rms
    rw [if_neg ha, if_pos ((rms_linear_eq_zero_iff a ha).mpr h)]
  · intro hns
    have hm0 : rms_linear a ≠ 0 := by
      intro h0
      obtain ⟨x, hx, hxne⟩ := hns
      exact hxne ((rms_linear_eq_zero_iff a ha).mp h0 x hx)
    have hm : 0 < rms_linear a := lt_of_le_of_ne (rms_linear_nonneg a)
      (Ne.symm hm0)
    have hg : 0 < db_to_linear (t - 20 * Real.logb 10 (rms_linear a)) :=
      db_to_linear_pos _
    have hrmsz : rms_linear (a.map (fun x => x *
        db_to_linear (t - 20 * Real.logb 10 (rms_linear a)))) =
        db_to_linear t := by
      rw [rms_linear_map_mul a _ hg.le, gain_formula t _ hm,
        mul_div_cancel₀ _ hm0]
    rcases le_or_lt (maxAbs (a.map (fun x => x *
        db_to_linear (t - 20 * Real.logb 10 (rms_linear a)))))
        (db_to_linear l) with hPL | hPL
    · refine ⟨a.map (fun x => x *
          db_to_linear (t - 20 * Real.logb 10 (rms_linear a))), ?_, hPL,
        fun _ => ⟨rfl, ?_, ?_⟩, fun hlt => absurd hlt (not_lt.mpr hPL)⟩
      · unfold normalize_rms
        rw [if_neg ha, if_neg hm0]
        simp only [if_neg (not_lt.mpr hPL)]
      · rw [hrmsz, logb_db_to_linear]
      · rw [hrmsz, logb_db_to_linear]
        simp
        norm_num
    · have hP : 0 < maxAbs (a.map (fun x => x *
          db_to_linear (t - 20 * Real.logb 10 (rms_linear a)))) :=
        lt_trans (db_to_linear_pos l) hPL
      have hpeak : maxAbs ((a.map (fun x => x *
          db_to_linear (t - 20 * Real.logb 10 (rms_linear a)))).map
            (fun x => x * (db_to_linear l / maxAbs (a.map (fun x => x *
              db_to_linear (t - 20 * Real.logb 10 (rms_linear a))))))) =
          db_to_linear l := by
        rw [maxAbs_map_mul _ _
          (div_nonneg (db_to_linear_pos l).le (maxAbs_nonneg _))]
        rw [mul_div_cancel₀ _ hP.ne']
      refine ⟨_, ?_, le_of_eq hpeak,
        fun hle => absurd hPL (not_lt.mpr hle), fun _ => hpeak⟩
      unfold normalize_rms
      rw [if_neg ha, if_neg hm0]
      simp only [if_pos hPL]

/-- Witness for C2: the amended theorem applied to the buffer `[1/2]`
with target −20 dB (the limiter stays disengaged). -/
theorem c2_normalize_rms_witness :
    ∃ y, normalize_rms [(1 : ℝ) / 2] (-20) (-0.1) = .ok y ∧
      maxAbs y ≤ db_to_linear (-0.1) ∧
      (maxAbs ([(1 : ℝ) / 2].map (fun x => x *
          db_to_linear (-20 - 20 * Real.logb 10 (rms_linear [(1 : ℝ) / 2])))) ≤
            db_to_linear (-0.1) →
        y = [(1 : ℝ) / 2].map (fun x => x *
          db_to_linear (-20 - 20 * Real.logb 10 (rms_linear [(1 : ℝ) / 2]))) ∧
        20 * Real.logb 10 (rms_linear y) = -20 ∧
        |20 * Real.logb 10 (rms_linear y) - (-20)| ≤ 0.5) ∧
      (db_to_linear (-0.1) < maxAbs ([(1 : ℝ) / 2].map (fun x => x *
          db_to_linear (-20 - 20 * Real.logb 10 (rms_linear [(1 : ℝ) / 2])))) →
        maxAbs y = db_to_linear (-0.1)) :=
  (c2_normalize_rms [(1 : ℝ) / 2] (-20) (-0.1) (by simp)).2
    ⟨1 / 2, by simp, by norm_num⟩

/-- C2 counterexample: on the non-silent buffer of one full-scale sample
followed by 99 zeros, normalizing to a +20 dB target engages the peak
limiter and the returned buffer's RMS level is −20.1 dB — more than
0.5 dB (indeed 40.1 dB) away from the target. -/
theorem c2_normalize_rms_counterexample :
    (∃ x ∈ (1 :: List.replicate 99 (0 : ℝ)), x ≠ 0) ∧
    ∃ y, normalize_rms (1 :: List.replicate 99 (0 : ℝ)) 20 (-0.1) = .ok y ∧
      0.5 < |20 * Real.logb 10 (rms_linear y) - 20| := by
  have hne : (1 :: List.replicate 99 (0 : ℝ)) ≠ [] := by simp
  have hms : meanSquare (1 :: List.replicate 99 (0 : ℝ)) = 1 / 100 := by
    unfold meanSquare npMean
    simp
  have hrm : rms_linear (1 :: List.replicate 99 (0 : ℝ)) = 1 / 10 := by
    unfold rms_linear
    rw [hms, show (1 : ℝ) / 100 = (1 / 10) ^ 2 by norm_num,
      Real.sqrt_sq (by norm_num)]
  have hm0 : rms_linear (1 :: List.replicate 99 (0 : ℝ)) ≠ 0 := by
    rw [hrm]
    norm_num
  have hma : maxAbs (1 :: List.replicate 99 (0 : ℝ)) = 1 := by
    have hz : maxAbs (List.replicate 99 (0 : ℝ)) = 0 :=
      (maxAbs_eq_zero_iff _).mpr (by simp)
    unfold maxAbs at hz ⊢
    simp only [List.foldr_cons]
    rw [hz]
    norm_num
  have hT : db_to_linear 20 = 10 := by
    unfold db_to_linear
    rw [show (20 : ℝ) / 20 = 1 by norm_num, Real.rpow_one]
  have hg : db_to_linear
      (20 - 20 * Real.logb 10 (rms_linear (1 :: List.replicate 99 (0 : ℝ)))) =
      100 := by
    rw [hrm, gain_formula 20 (1 / 10) (by norm_num), hT]
    norm_num
  have hP : maxAbs ((1 :: List.replicate 99 (0 : ℝ)).map (fun x => x *
      db_to_linear (20 - 20 * Real.logb 10
        (rms_linear (1 :: List.replicate 99 (0 : ℝ)))))) = 100 := by
    rw [maxAbs_map_mul _ _ (db_to_linear_pos _).le, hma, hg]
    norm_num
  have hclamp : db_to_linear (-0.1) <
      maxAbs ((1 :: List.replicate 99 (0 : ℝ)).map (fun x => x *
        db_to_linear (20 - 20 * Real.logb 10
          (rms_linear (1 :: List.replicate 99 (0 : ℝ)))))) := by
    rw [hP]
    have h1 : db_to_linear (-0.1) ≤ 1 := by
      unfold db_to_linear
      calc (10 : ℝ) ^ ((-0.1) / 20) ≤ 10 ^ (0 : ℝ) :=
            Real.rpow_le_rpow_of_exponent_le (by norm_num) (by norm_num)
        _ = 1 := Real.rpow_zero 10
    linarith
  refine ⟨⟨1, List.mem_cons_self _ _, one_ne_zero⟩, ?_⟩
  refine ⟨((1 :: List.replicate 99 (0 : ℝ)).map (fun x => x *
      db_to_linear (20 - 20 * Real.logb 10
        (rms_linear (1 :: List.replicate 99 (0 : ℝ)))))).map (fun x => x *
      (db_to_linear (-0.1) / maxAbs ((1 :: List.replicate 99 (0 : ℝ)).map
        (fun x => x * db_to_linear (20 - 20 * Real.logb 10
          (rms_linear (1 :: List.replicate 99 (0 : ℝ)))))))), ?_, ?_⟩
  · unfold normalize_rms
    rw [if_neg hne, if_neg hm0]
    simp only [if_pos hclamp]
  · have hy : rms_linear (((1 :: List.replicate 99 (0 : ℝ)).map (fun x => x *
        db_to_linear (20 - 20 * Real.logb 10
          (rms_linear (1 :: List.replicate 99 (0 : ℝ)))))).map (fun x => x *
        (db_to_linear (-0.1) / maxAbs ((1 :: List.replicate 99 (0 : ℝ)).map
          (fun x => x * db_to_linear (20 - 20 * Real.logb 10
            (rms_linear (1 :: List.replicate 99 (0 : ℝ))))))))) =
        db_to_linear (-0.1) / 10 := by
      rw [rms_linear_map_mul _ _
          (div_nonneg (db_to_linear_pos _).le (maxAbs_nonneg _)),
        rms_linear_map_mul _ _ (db_to_linear_pos _).le, hP, hg, hrm]
      ring
    have hLd : db_to_linear (-0.1) / 10 =
        (10 : ℝ) ^ ((-0.1 : ℝ) / 20 - 1) := by
      unfold db_to_linear
      rw [Real.rpow_sub (by norm_num), Real.rpow_one]
    have hlog : 20 * Real.logb 10 (db_to_linear (-0.1) / 10) =
        (-20.1 : ℝ) := by
      rw [hLd, Real.logb_rpow (by norm_num) (by norm_num)]
      norm_num
    rw [hy, hlog]
    rw [show (-20.1 : ℝ) - 20 = -(40.1 : ℝ) by norm_num, abs_neg,
      abs_of_nonneg (by norm_num)]
    norm_num

/- ===================== theorems: C9 ===================== -/

/-- Helper: a buffer already at the target RMS whose peak is within the
limit is a fixed point of `normalize_rms` (the computed gain is exactly
1 and the limiter stays disengaged). -/
theorem normalize_rms_fixed (z : List ℝ) (t l : ℝ) (hz : z ≠ [])
    (hrms : rms_linear z = db_to_linear t)
    (hpk : maxAbs z ≤ db_to_linear l) :
    normalize_rms z t l = .ok z := by
  have hz0 : rms_linear z ≠ 0 := by
    rw [hrms]
    exact (db_to_linear_pos t).ne'
  have hgain : db_to_linear (t - 20 * Real.logb 10 (rms_linear z)) = 1 := by
    rw [hrms, logb_db_to_linear]
    unfold db_to_linear
    rw [sub_self, zero_div, Real.rpow_zero]
  have hmap : z.map (fun x => x *
      db_to_linear (t - 20 * Real.logb 10 (rms_linear z))) = z := by
    rw [hgain]
    simp
  unfold normalize_rms
  rw [if_neg hz, if_neg hz0]
  simp only [hmap]
  rw [if_neg (not_lt.mpr hpk)]

/-- Helper: a buffer produced by the limiter branch — RMS at
`target · (limit / P)` and peak exactly at the limit, for some post-gain
peak `P` above the limit — is a fixed point of `normalize_rms`: the
second pass applies gain `P / limit` and the limiter scales it straight
back down. -/
theorem normalize_rms_clamped_fixed (y : List ℝ) (t l : ℝ) (hy : y ≠ [])
    (P : ℝ) (hLP : db_to_linear l < P)
    (hrms : rms_linear y = db_to_linear t * (db_to_linear l / P))
    (hpk : maxAbs y = db_to_linear l) :
    normalize_rms y t l = .ok y := by
  have hL : 0 < db_to_linear l := db_to_linear_pos l
  have hT : 0 < db_to_linear t := db_to_linear_pos t
  have hP : 0 < P := lt_trans hL hLP
  have hrmspos : 0 < rms_linear y := by
    rw [hrms]
    positivity
  have hgain : db_to_linear (t - 20 * Real.logb 10 (rms_linear y)) =
      P / db_to_linear l := by
    rw [gain_formula t _ hrmspos, hrms]
    field_simp
    ring
  have hwpeak : maxAbs (y.map (fun x => x * (P / db_to_linear l))) = P := by
    rw [maxAbs_map_mul _ _ (by positivity), hpk]
    field_simp
  unfold normalize_rms
  rw [if_neg hy, if_neg hrmspos.ne']
  simp only [hgain]
  rw [hwpeak, if_pos hLP, List.map_map]
  have hcomp : ((fun x => x * (db_to_linear l / P)) ∘
      (fun x => x * (P / db_to_linear l))) =
      fun x => x * ((P / db_to_linear l) * (db_to_linear l / P)) := by
    funext x
    simp [mul_assoc]
  rw [hcomp, show (P / db_to_linear l) * (db_to_linear l / P) = 1 by
    field_simp]
  simp

/-- C9: `normalize_rms` is idempotent (exactly, in real arithmetic, even
when the peak limiter engages): on any non-silent buffer the first
normalization's output is a fixed point of a second normalization with
the same target, so the second pass changes the level by 0 dB — in
particular by less than 0.01 dB. -/
theorem c9_normalize_rms_idempotent (a : List ℝ) (t l : ℝ) (ha : a ≠ [])
    (hns : ∃ x ∈ a, x ≠ 0) :
    ∃ y, normalize_rms a t l = .ok y ∧ normalize_rms y t l = .ok y ∧
      ∀ z, normalize_rms y t l = .ok z →
        |20 * Real.logb 10 (rms_linear z) -
          20 * Real.logb 10 (rms_linear y)| < 0.01 := by
  have hm0 : rms_linear a ≠ 0 := by
    intro h0
    obtain ⟨x, hx, hxne⟩ := hns
    exact hxne ((rms_linear_eq_zero_iff a ha).mp h0 x hx)
  have hm : 0 < rms_linear a := lt_of_le_of_ne (rms_linear_nonneg a)
    (Ne.symm hm0)
  have hg : 0 < db_to_linear (t - 20 * Real.logb 10 (rms_linear a)) :=
    db_to_linear_pos _
  have hzne : a.map (fun x => x *
      db_to_linear (t - 20 * Real.logb 10 (rms_linear a))) ≠ [] := by
    intro h
    exact ha (List.map_eq_nil_iff.mp h)
  have hrmsz : rms_linear (a.map (fun x => x *
      db_to_linear (t - 20 * Real.logb 10 (rms_linear a)))) =
      db_to_linear t := by
    rw [rms_linear_map_mul a _ hg.le, gain_formula t _ hm,
      mul_div_cancel₀ _ hm0]
  rcases le_or_lt (maxAbs (a.map (fun x => x *
      db_to_linear (t - 20 * Real.logb 10 (rms_linear a)))))
      (db_to_linear l) with hPL | hPL
  · refine ⟨a.map (fun x => x *
        db_to_linear (t - 20 * Real.logb 10 (rms_linear a))), ?_, ?_, ?_⟩
    · unfold normalize_rms
      rw [if_neg ha, if_neg hm0]
      simp only [if_neg (not_lt.mpr hPL)]
    · exact normalize_rms_fixed _ t l hzne hrmsz hPL
    · intro z hz
      have heq := (normalize_rms_fixed _ t l hzne hrmsz hPL).symm.trans hz
      simp only [Except.ok.injEq] at heq
      rw [← heq, sub_self, abs_zero]
      norm_num
  · have hP : 0 < maxAbs (a.map (fun x => x *
        db_to_linear (t - 20 * Real.logb 10 (rms_linear a)))) :=
      lt_trans (db_to_linear_pos l) hPL
    have hyrms : rms_linear ((a.map (fun x => x *
        db_to_linear (t - 20 * Real.logb 10 (rms_linear a)))).map
          (fun x => x * (db_to_linear l / maxAbs (a.map (fun x => x *
            db_to_linear (t - 20 * Real.logb 10 (rms_linear a))))))) =
        db_to_linear t * (db_to_linear l / maxAbs (a.map (fun x => x *
          db_to_linear (t - 20 * Real.logb 10 (rms_linear a))))) := by
      rw [rms_linear_map_mul _ _
        (div_nonneg (db_to_linear_pos l).le (maxAbs_nonneg _)), hrmsz]
    have hypk : maxAbs ((a.map (fun x => x *
        db_to_linear (t - 20 * Real.logb 10 (rms_linear a)))).map
          (fun x => x * (db_to_linear l / maxAbs (a.map (fun x => x *
            db_to_linear (t - 20 * Real.logb 10 (rms_linear a))))))) =
        db_to_linear l := by
      rw [maxAbs_map_mul _ _
        (div_nonneg (db_to_linear_pos l).le (maxAbs_nonneg _))]
      rw [mul_div_cancel₀ _ hP.ne']
    have hyne : (a.map (fun x => x *
        db_to_linear (t - 20 * Real.logb 10 (rms_linear a)))).map
          (fun x => x * (db_to_linear l / maxAbs (a.map (fun x => x *
            db_to_linear (t - 20 * Real.logb 10 (rms_linear a)))))) ≠ [] := by
      intro h
      exact hzne (List.map_eq_nil_iff.mp h)
    have hfix := normalize_rms_clamped_fixed _ t l hyne _ hPL hyrms hypk
    refine ⟨_, ?_, hfix, ?_⟩
    · unfold normalize_rms
      rw [if_neg ha, if_neg hm0]
      simp only [if_pos hPL]
    · intro z hz
      have heq := hfix.symm.trans hz
      simp only [Except.ok.injEq] at heq
      rw [← heq, sub_self, abs_zero]
      norm_num

/-- Witness for C9: idempotence applied to the concrete buffer `[1/2]`
with target −20 dB. -/
theorem c9_normalize_rms_idempotent_witness :
    ∃ y, normalize_rms [(1 : ℝ) / 2] (-20) (-0.1) = .ok y ∧
      normalize_rms y (-20) (-0.1) = .ok y ∧
      ∀ z, normalize_rms y (-20) (-0.1) = .ok z →
        |20 * Real.logb 10 (rms_linear z) -
          20 * Real.logb 10 (rms_linear y)| < 0.01 :=
  c9_normalize_rms_idempotent [(1 : ℝ) / 2] (-20) (-0.1) (by simp)
    ⟨1 / 2, by simp, by norm_num⟩

/- ===================== theorems: C3 helpers ===================== -/

/-- Helper: each power-spectrum bin is nonnegative. -/
theorem powerBin_nonneg (a : List ℝ) (k : ℕ) : 0 ≤ powerBin a k :=
  sq_nonneg _

/-- Helper: each band energy is nonnegative. -/
theorem bass_energy_nonneg (a : List ℝ) (sr : ℕ) : 0 ≤ bass_energy a sr :=
  Finset.sum_nonneg (fun k _ => powerBin_nonneg a k)

/-- Helper: each band energy is nonnegative. -/
theorem mid_energy_nonneg (a : List ℝ) (sr : ℕ) : 0 ≤ mid_energy a sr :=
  Finset.sum_nonneg (fun k _ => powerBin_nonneg a k)

/-- Helper: each band energy is nonnegative. -/
theorem treble_energy_nonneg (a : List ℝ) (sr : ℕ) : 0 ≤ treble_energy a sr :=
  Finset.sum_nonneg (fun k _ => powerBin_nonneg a k)

/-- Helper: the DFT of an all-zero buffer vanishes at every bin. -/
theorem dftBin_silent (a : List ℝ) (h : ∀ x ∈ a, x = 0) (k : ℕ) :
    dftBin a k = 0 := by
  unfold dftBin
  apply Finset.sum_eq_zero
  intro j hj
  have hj' : j < a.length := Finset.mem_range.mp hj
  have : a.getD j 0 = 0 := by
    rw [List.getD_eq_getElem a 0 hj']
    exact h _ (List.getElem_mem hj')
  rw [this]
  simp

/-- Helper: a primitive-root power with index strictly between 0 and `n`
is not 1 (so the geometric series over it collapses). -/
theorem exp_unit_root_ne_one (n k : ℕ) (hk1 : 0 < k) (hk2 : k < n) :
    Complex.exp (-2 * Real.pi * Complex.I * k / n) ≠ 1 := by
  intro h
  obtain ⟨m, hm⟩ := Complex.exp_eq_one_iff.mp h
  have hn0 : (0 : ℕ) < n := lt_trans hk1 hk2
  have hnC : (n : ℂ) ≠ 0 := by
    exact_mod_cast Nat.pos_iff_ne_zero.mp hn0
  have hpiI : (2 : ℂ) * Real.pi * Complex.I ≠ 0 := by
    simp [Complex.I_ne_zero, Real.pi_ne_zero, Complex.ofReal_ne_zero]
  have hmain : (2 : ℂ) * Real.pi * Complex.I * (-(k : ℂ)) =
      (2 : ℂ) * Real.pi * Complex.I * (m * n) := by
    have := hm
    field_simp at this
    linear_combination this
  have hcast : (-(k : ℂ)) = (m : ℂ) * n := mul_left_cancel₀ hpiI hmain
  have hint : -(k : ℤ) = m * n := by exact_mod_cast hcast
  rcases le_or_lt 0 m with hm0 | hm0
  · have : (0 : ℤ) ≤ m * n := mul_nonneg hm0 (by positivity)
    omega
  · have hm1 : m ≤ -1 := by omega
    have : m * n ≤ -1 * n := by
      apply mul_le_mul_of_nonneg_right hm1
      positivity
    omega

/-- Helper: the DFT of a constant buffer vanishes at every nonzero bin
below `n` (a geometric sum over a nontrivial root of unity). -/
theorem dftBin_const (c : ℝ) (n k : ℕ) (hk1 : 0 < k) (hk2 : k < n) :
    dftBin (List.replicate n c) k = 0 := by
  unfold dftBin
  rw [List.length_replicate]
  have hterm : ∀ j ∈ Finset.range n,
      ((List.replicate n c).getD j 0 : ℂ) *
        Complex.exp (-2 * Real.pi * Complex.I * k * j / n) =
      (c : ℂ) * Complex.exp (-2 * Real.pi * Complex.I * k / n) ^ j := by
    intro j hj
    have hj' : j < n := Finset.mem_range.mp hj
    have hget : (List.replicate n c).getD j 0 = c := by
      rw [List.getD_eq_getElem _ 0 (by simpa using hj'),
        List.getElem_replicate]
    rw [hget, ← Complex.exp_nat_mul]
    congr 2
    ring
  rw [Finset.sum_congr rfl hterm, ← Finset.mul_sum,
    geom_sum_eq (exp_unit_root_ne_one n k hk1 hk2)]
  have hpow : Complex.exp (-2 * Real.pi * Complex.I * k / n) ^ n =
      Complex.exp (-(k : ℂ) * (2 * Real.pi * Complex.I)) := by
    rw [← Complex.exp_nat_mul]
    congr 1
    have hnC : (n : ℂ) ≠ 0 := by
      exact_mod_cast Nat.pos_iff_ne_zero.mp (lt_trans hk1 hk2)
    field_simp
    ring
  have hone : Complex.exp (-(k : ℂ) * (2 * Real.pi * Complex.I)) = 1 := by
    have := Complex.exp_int_mul_two_pi_mul_I (-(k : ℤ))
    push_cast at this
    convert this using 2
  rw [hpow, hone]
  simp

/- ===================== theorems: C3 ===================== -/

/-- C3 counterexample: the constant (DC) buffer `[1,1,1,1]` at 48 kHz is
non-silent, yet all its spectral energy sits in the excluded DC bin, so
the three band-energy ratios are `(0,0,0)` and their sum is 0, not
1 ± 0.01. -/
theorem c3_band_ratios_counterexample :
    (∃ x ∈ ([1, 1, 1, 1] : List ℝ), x ≠ 0) ∧
    calculate_band_energy_ratios ([1, 1, 1, 1] : List ℝ) 48000 =
      .ok (0, 0, 0) := by
  have hb : bass_energy ([1, 1, 1, 1] : List ℝ) 48000 = 0 := by
    unfold bass_energy
    apply Finset.sum_eq_zero
    intro k hk
    simp only [Finset.mem_filter, Finset.mem_range, rfftBins,
      List.length_cons, List.length_nil, binFreq] at hk
    obtain ⟨hk3, hk4, hk5⟩ := hk
    interval_cases k <;> norm_num at hk4 hk5
  have hm2 : mid_energy ([1, 1, 1, 1] : List ℝ) 48000 = 0 := by
    unfold mid_energy
    apply Finset.sum_eq_zero
    intro k hk
    simp only [Finset.mem_filter, Finset.mem_range, rfftBins,
      List.length_cons, List.length_nil, binFreq] at hk
    obtain ⟨hk3, hk4, hk5⟩ := hk
    interval_cases k <;> norm_num at hk4 hk5
  have ht : treble_energy ([1, 1, 1, 1] : List ℝ) 48000 = 0 := by
    unfold treble_energy
    apply Finset.sum_eq_zero
    intro k hk
    simp only [Finset.mem_filter, Finset.mem_range, rfftBins,
      List.length_cons, List.length_nil, binFreq] at hk
    obtain ⟨hk3, hk4, hk5⟩ := hk
    interval_cases k
    · norm_num at hk4
    · unfold powerBin
      rw [show ([1, 1, 1, 1] : List ℝ) = List.replicate 4 1 from rfl,
        dftBin_const 1 4 1 (by norm_num) (by norm_num)]
      simp
    · norm_num [min_def] at hk5
  refine ⟨⟨1, by simp, one_ne_zero⟩, ?_⟩
  unfold calculate_band_energy_ratios
  rw [if_neg (by simp)]
  simp only [hb, hm2, ht]
  norm_num

/-- C3 (amended): the band-energy ratios are each in [0,1] and sum
EXACTLY to 1 (hence within 0.01) for every buffer whose three-band total
energy is nonzero; whenever the total in-band energy is zero — which
includes every all-zero buffer but also some non-silent ones, such as
pure-DC buffers — the result is `(0,0,0)`. -/
theorem c3_band_energy_ratios (a : List ℝ) (sr : ℕ) (ha : a ≠ []) :
    ((∀ x ∈ a, x = 0) →
      calculate_band_energy_ratios a sr = .ok (0, 0, 0)) ∧
    (bass_energy a sr + mid_energy a sr + treble_energy a sr = 0 →
      calculate_band_energy_ratios a sr = .ok (0, 0, 0)) ∧
    (bass_energy a sr + mid_energy a sr + treble_energy a sr ≠ 0 →
      calculate_band_energy_ratios a sr = .ok
        (bass_energy a sr /
          (bass_energy a sr + mid_energy a sr + treble_energy a sr),
         mid_energy a sr /
          (bass_energy a sr + mid_energy a sr + treble_energy a sr),
         treble_energy a sr /
          (bass_energy a sr + mid_energy a sr + treble_energy a sr)) ∧
      (0 ≤ bass_energy a sr /
          (bass_energy a sr + mid_energy a sr + treble_energy a sr) ∧
        bass_energy a sr /
          (bass_energy a sr + mid_energy a sr + treble_energy a sr) ≤ 1) ∧
      (0 ≤ mid_energy a sr /
          (bass_energy a sr + mid_energy a sr + treble_energy a sr) ∧
        mid_energy a sr /
          (bass_energy a sr + mid_energy a sr + treble_energy a sr) ≤ 1) ∧
      (0 ≤ treble_energy a sr /
          (bass_energy a sr + mid_energy a sr + treble_energy a sr) ∧
        treble_energy a sr /
          (bass_energy a sr + mid_energy a sr + treble_energy a sr) ≤ 1) ∧
      bass_energy a sr /
          (bass_energy a sr + mid_energy a sr + treble_energy a sr) +
        mid_energy a sr /
          (bass_energy a sr + mid_energy a sr + treble_energy a sr) +
        treble_energy a sr /
          (bass_energy a sr + mid_energy a sr + treble_energy a sr) = 1) := by
  have hB := bass_energy_nonneg a sr
  have hM := mid_energy_nonneg a sr
  have hT := treble_energy_nonneg a sr
  refine ⟨?_, ?_, ?_⟩
  · intro h
    have hp : ∀ k, powerBin a k = 0 := by
      intro k
      unfold powerBin
      rw [dftBin_silent a h k]
      simp
    have hb0 : bass_energy a sr = 0 :=
      Finset.sum_eq_zero (fun k _ => hp k)
    have hm0 : mid_energy a sr = 0 :=
      Finset.sum_eq_zero (fun k _ => hp k)
    have ht0 : treble_energy a sr = 0 :=
      Finset.sum_eq_zero (fun k _ => hp k)
    unfold calculate_band_energy_ratios
    rw [if_neg ha]
    simp only [hb0, hm0, ht0]
    norm_num
  · intro htot
    unfold calculate_band_energy_ratios
    rw [if_neg ha]
    simp only [if_pos htot]
  · intro htot
    have hpos : 0 < bass_energy a sr + mid_energy a sr + treble_energy a sr :=
      lt_of_le_of_ne (by linarith) (Ne.symm htot)
    refine ⟨?_, ⟨by positivity, ?_⟩, ⟨by positivity, ?_⟩,
      ⟨by positivity, ?_⟩, ?_⟩
    · unfold calculate_band_energy_ratios
      rw [if_neg ha]
      simp only [if_neg htot]
    · rw [div_le_one hpos]
      linarith
    · rw [div_le_one hpos]
      linarith
    · rw [div_le_one hpos]
      linarith
    · field_simp

/-- Helper for the C3 witness: the buffer `[1, -1]` at 4 kHz has nonzero
in-band energy (its Nyquist bin lands exactly on the treble band edge
and carries power 4). -/
theorem c3_total_energy_ne_zero :
    bass_energy [(1 : ℝ), -1] 4000 + mid_energy [(1 : ℝ), -1] 4000 +
      treble_energy [(1 : ℝ), -1] 4000 ≠ 0 := by
  have hdft : dftBin [(1 : ℝ), -1] 1 = 2 := by
    unfold dftBin
    rw [show ([(1 : ℝ), -1]).length = 2 from rfl]
    rw [Finset.sum_range_succ, Finset.sum_range_succ, Finset.sum_range_zero]
    have e1 : Complex.exp (-(2 * (Real.pi : ℂ) * Complex.I) / 2) = -1 := by
      rw [show (-(2 * (Real.pi : ℂ) * Complex.I) / 2) =
        -(Real.pi * Complex.I) by ring]
      rw [Complex.exp_neg, Complex.exp_pi_mul_I]
      norm_num
    norm_num [List.getD]
    rw [e1]
    norm_num
  have hp1 : powerBin [(1 : ℝ), -1] 1 = 4 := by
    unfold powerBin
    rw [hdft]
    rw [show ((2 : ℂ) : ℂ) = ((2 : ℝ) : ℂ) by norm_num, Complex.abs_ofReal]
    norm_num
  have htreb : powerBin [(1 : ℝ), -1] 1 ≤ treble_energy [(1 : ℝ), -1] 4000 := by
    unfold treble_energy
    apply Finset.single_le_sum (fun k _ => powerBin_nonneg _ k)
    simp [rfftBins, binFreq]
    norm_num [min_def]
  have hB := bass_energy_nonneg [(1 : ℝ), -1] 4000
  have hM := mid_energy_nonneg [(1 : ℝ), -1] 4000
  rw [hp1] at htreb
  intro h
  linarith

/-- Witness for C3: the amended theorem applied to the non-silent buffer
`[1, -1]` at 4 kHz, whose in-band total energy is nonzero. -/
theorem c3_band_energy_ratios_witness :
    calculate_band_energy_ratios [(1 : ℝ), -1] 4000 = .ok
      (bass_energy [(1 : ℝ), -1] 4000 /
        (bass_energy [(1 : ℝ), -1] 4000 + mid_energy [(1 : ℝ), -1] 4000 +
          treble_energy [(1 : ℝ), -1] 4000),
       mid_energy [(1 : ℝ), -1] 4000 /
        (bass_energy [(1 : ℝ), -1] 4000 + mid_energy [(1 : ℝ), -1] 4000 +
          treble_energy [(1 : ℝ), -1] 4000),
       treble_energy [(1 : ℝ), -1] 4000 /
        (bass_energy [(1 : ℝ), -1] 4000 + mid_energy [(1 : ℝ), -1] 4000 +
          treble_energy [(1 : ℝ), -1] 4000)) ∧
    (0 ≤ bass_energy [(1 : ℝ), -1] 4000 /
        (bass_energy [(1 : ℝ), -1] 4000 + mid_energy [(1 : ℝ), -1] 4000 +
          treble_energy [(1 : ℝ), -1] 4000) ∧
      bass_energy [(1 : ℝ), -1] 4000 /
        (bass_energy [(1 : ℝ), -1] 4000 + mid_energy [(1 : ℝ), -1] 4000 +
          treble_energy [(1 : ℝ), -1] 4000) ≤ 1) ∧
    (0 ≤ mid_energy [(1 : ℝ), -1] 4000 /
        (bass_energy [(1 : ℝ), -1] 4000 + mid_energy [(1 : ℝ), -1] 4000 +
          treble_energy [(1 : ℝ), -1] 4000) ∧
      mid_energy [(1 : ℝ), -1] 4000 /
        (bass_energy [(1 : ℝ), -1] 4000 + mid_energy [(1 : ℝ), -1] 4000 +
          treble_energy [(1 : ℝ), -1] 4000) ≤ 1) ∧
    (0 ≤ treble_energy [(1 : ℝ), -1] 4000 /
        (bass_energy [(1 : ℝ), -1] 4000 + mid_energy [(1 : ℝ), -1] 4000 +
          treble_energy [(1 : ℝ), -1] 4000) ∧
      treble_energy [(1 : ℝ), -1] 4000 /
        (bass_energy [(1 : ℝ), -1] 4000 + mid_energy [(1 : ℝ), -1] 4000 +
          treble_energy [(1 : ℝ), -1] 4000) ≤ 1) ∧
    bass_energy [(1 : ℝ), -1] 4000 /
        (bass_energy [(1 : ℝ), -1] 4000 + mid_energy [(1 : ℝ), -1] 4000 +
          treble_energy [(1 : ℝ), -1] 4000) +
      mid_energy [(1 : ℝ), -1] 4000 /
        (bass_energy [(1 : ℝ), -1] 4000 + mid_energy [(1 : ℝ), -1] 4000 +
          treble_energy [(1 : ℝ), -1] 4000) +
      treble_energy [(1 : ℝ), -1] 4000 /
        (bass_energy [(1 : ℝ), -1] 4000 + mid_energy [(1 : ℝ), -1] 4000 +
          treble_energy [(1 : ℝ), -1] 4000) = 1 :=
  (c3_band_energy_ratios [(1 : ℝ), -1] 4000 (by simp)).2.2
    c3_total_energy_ne_zero

/- ===================== theorems: C6 helpers ===================== -/

/-- Helper: `calculate_rms_dbfs` on a nonempty buffer is `-inf` exactly
on silence and finite otherwise — never NaN. -/
theorem calculate_rms_dbfs_spec (a : List ℝ) (ha : a ≠ []) :
    ((∀ x ∈ a, x = 0) → calculate_rms_dbfs a = .neginf) ∧
    ((∃ x ∈ a, x ≠ 0) → calculate_rms_dbfs a =
      .fin (20 * Real.logb 10 (Real.sqrt (meanSquare a)))) := by
  constructor
  · intro h
    unfold calculate_rms_dbfs
    rw [if_neg ha, if_pos]
    show rms_linear a = 0
    exact (rms_linear_eq_zero_iff a ha).mpr h
  · intro h
    unfold calculate_rms_dbfs
    rw [if_neg ha, if_neg]
    show ¬ rms_linear a = 0
    intro h0
    obtain ⟨x, hx, hxne⟩ := h
    exact hxne ((rms_linear_eq_zero_iff a ha).mp h0 x hx)

/-- Helper: `calculate_peak_dbfs` on a nonempty buffer returns `-inf`
exactly on silence and a finite value otherwise — never an error. -/
theorem calculate_peak_dbfs_spec (a : List ℝ) (ha : a ≠ []) :
    ((∀ x ∈ a, x = 0) → calculate_peak_dbfs a = .ok .neginf) ∧
    ((∃ x ∈ a, x ≠ 0) → calculate_peak_dbfs a =
      .ok (.fin (20 * Real.logb 10 (maxAbs a)))) := by
  constructor
  · intro h
    unfold calculate_peak_dbfs
    rw [if_neg ha, if_pos ((maxAbs_eq_zero_iff a).mpr h)]
  · intro h
    unfold calculate_peak_dbfs
    rw [if_neg ha, if_neg]
    intro h0
    obtain ⟨x, hx, hxne⟩ := h
    exact hxne ((maxAbs_eq_zero_iff a).mp h0 x hx)

/-- Helper: `calculate_transient_density` never raises on a nonempty
buffer and its result is nonnegative. -/
theorem calculate_transient_density_ok (a : List ℝ) (sr : ℕ) (ha : a ≠ []) :
    ∃ td, calculate_transient_density a sr = .ok td ∧ 0 ≤ td := by
  unfold calculate_transient_density
  rw [if_neg ha]
  dsimp only
  split
  · exact ⟨0, rfl, le_refl 0⟩
  · split
    · exact ⟨0, rfl, le_refl 0⟩
    · split
      · exact ⟨0, rfl, le_refl 0⟩
      · refine ⟨_, rfl, ?_⟩
        positivity

/-- Helper: `calculate_attack_time_ms` never raises on a nonempty buffer
and its result is nonnegative. -/
theorem calculate_attack_time_ms_ok (a : List ℝ) (sr : ℕ) (ha : a ≠ []) :
    ∃ t, calculate_attack_time_ms a sr = .ok t ∧ 0 ≤ t := by
  unfold calculate_attack_time_ms
  rw [if_neg ha]
  dsimp only
  split
  · exact ⟨0, rfl, le_refl 0⟩
  · split
    · exact ⟨0, rfl, le_refl 0⟩
    · refine ⟨_, rfl, ?_⟩
      positivity

/-- Helper: `calculate_sustain_decay_rate_db_s` never raises on a
nonempty buffer. -/
theorem calculate_sustain_decay_rate_ok (a : List ℝ) (sr : ℕ) (ha : a ≠ []) :
    ∃ s, calculate_sustain_decay_rate_db_s a sr = .ok s := by
  unfold calculate_sustain_decay_rate_db_s
  rw [if_neg ha]
  dsimp only
  split
  · exact ⟨0, rfl⟩
  · split
    · exact ⟨0, rfl⟩
    · split <;> split <;> exact ⟨_, rfl⟩

/-- Helper: the LUFS fallback on a nonempty buffer is `-inf` or finite,
never NaN and never an exception. -/
theorem calculate_lufs_integrated_cases (shelf hp boost : List SOSSection)
    (a : List ℝ) (ha : a ≠ []) :
    calculate_lufs_integrated shelf hp boost a = .neginf ∨
    ∃ u, calculate_lufs_integrated shelf hp boost a = .fin u := by
  unfold calculate_lufs_integrated
  rw [if_neg ha]
  dsimp only
  split
  · exact Or.inl rfl
  · exact Or.inr ⟨_, rfl⟩

/-- Helper: the spectral centroid never raises on a nonempty buffer. -/
theorem calculate_spectral_centroid_ok (a : List ℝ) (sr : ℕ) (ha : a ≠ []) :
    ∃ c, calculate_spectral_centroid_hz a sr = .ok c := by
  unfold calculate_spectral_centroid_hz
  rw [if_neg ha]
  dsimp only
  split
  · exact ⟨0, rfl⟩
  · exact ⟨_, rfl⟩

/-- Helper: the band-energy ratios never raise on a nonempty buffer and
each component lies in [0, 1]. -/
theorem calculate_band_energy_ratios_ok (a : List ℝ) (sr : ℕ) (ha : a ≠ []) :
    ∃ b m t, calculate_band_energy_ratios a sr = .ok (b, m, t) ∧
      0 ≤ b ∧ b ≤ 1 ∧ 0 ≤ m ∧ m ≤ 1 ∧ 0 ≤ t ∧ t ≤ 1 := by
  have hB := bass_energy_nonneg a sr
  have hM := mid_energy_nonneg a sr
  have hT := treble_energy_nonneg a sr
  unfold calculate_band_energy_ratios
  rw [if_neg ha]
  dsimp only
  split
  · exact ⟨0, 0, 0, rfl, le_refl 0, by norm_num, le_refl 0, by norm_num,
      le_refl 0, by norm_num⟩
  · rename_i htot
    have hpos : 0 < bass_energy a sr + mid_energy a sr + treble_energy a sr :=
      lt_of_le_of_ne (by linarith) (Ne.symm htot)
    refine ⟨_, _, _, rfl, by positivity, ?_, by positivity, ?_,
      by positivity, ?_⟩
    · rw [div_le_one hpos]
      linarith
    · rw [div_le_one hpos]
      linarith
    · rw [div_le_one hpos]
      linarith

/-- Helper: `extract_core_metrics` never raises on a nonempty buffer and
assembles exactly the four core calculations. -/
theorem extract_core_metrics_ok (a : List ℝ) (sr : ℕ) (ha : a ≠ []) :
    ∃ p, calculate_peak_dbfs a = .ok p ∧
      extract_core_metrics a sr = .ok
        { rms_dbfs := calculate_rms_dbfs a, peak_dbfs := p,
          crest_factor_db :=
            calculate_crest_factor_db (calculate_rms_dbfs a) p,
          dynamic_range_db := calculate_dynamic_range_db a sr } := by
  have hpk : ∃ p, calculate_peak_dbfs a = .ok p := by
    unfold calculate_peak_dbfs
    rw [if_neg ha]
    split
    · exact ⟨_, rfl⟩
    · exact ⟨_, rfl⟩
  obtain ⟨p, hp⟩ := hpk
  refine ⟨p, hp, ?_⟩
  unfold extract_core_metrics
  rw [hp]

/-- Helper: `extract_spectral_metrics` never raises on a nonempty buffer
and the assembled ratios lie in [0, 1]. -/
theorem extract_spectral_metrics_ok (a : List ℝ) (sr : ℕ) (ha : a ≠ []) :
    ∃ c b m t,
      extract_spectral_metrics a sr = .ok
        { spectral_centroid_hz := c, bass_energy_ratio := b,
          mid_energy_ratio := m, treble_energy_ratio := t } ∧
      0 ≤ b ∧ b ≤ 1 ∧ 0 ≤ m ∧ m ≤ 1 ∧ 0 ≤ t ∧ t ≤ 1 := by
  obtain ⟨c, hc⟩ := calculate_spectral_centroid_ok a sr ha
  obtain ⟨b, m, t, hbmt, h1, h2, h3, h4, h5, h6⟩ :=
    calculate_band_energy_ratios_ok a sr ha
  refine ⟨c, b, m, t, ?_, h1, h2, h3, h4, h5, h6⟩
  unfold extract_spectral_metrics
  rw [hc, hbmt]

/-- Helper: `extract_advanced_metrics` never raises on a nonempty buffer
and assembles nonnegative transient density and attack time. -/
theorem extract_advanced_metrics_ok (shelf hp boost : List SOSSection)
    (a : List ℝ) (sr : ℕ) (ha : a ≠ []) :
    ∃ td atk sd,
      extract_advanced_metrics shelf hp boost a sr = .ok
        { lufs_integrated := calculate_lufs_integrated shelf hp boost a,
          transient_density := td, attack_time_ms := atk,
          sustain_decay_rate_db_s := sd } ∧
      0 ≤ td ∧ 0 ≤ atk := by
  obtain ⟨td, htd, htd0⟩ := calculate_transient_density_ok a sr ha
  obtain ⟨atk, hat, hat0⟩ := calculate_attack_time_ms_ok a sr ha
  obtain ⟨sd, hsd⟩ := calculate_sustain_decay_rate_ok a sr ha
  refine ⟨td, atk, sd, ?_, htd0, hat0⟩
  unfold extract_advanced_metrics
  rw [htd, hat, hsd]

/-- Helper: `extract_metrics` never raises on a nonempty buffer; its
fields are the individual calculations, the spectral ratios lie in
[0, 1], and transient density and attack time are nonnegative. -/
theorem extract_metrics_ok (shelf hp boost : List SOSSection)
    (a : List ℝ) (sr : ℕ) (ha : a ≠ []) :
    ∃ m, extract_metrics shelf hp boost a sr = .ok m ∧
      m.duration_seconds = (a.length : ℝ) / sr ∧
      m.core.rms_dbfs = calculate_rms_dbfs a ∧
      calculate_peak_dbfs a = .ok m.core.peak_dbfs ∧
      m.core.crest_factor_db =
        calculate_crest_factor_db m.core.rms_dbfs m.core.peak_dbfs ∧
      m.advanced.lufs_integrated =
        calculate_lufs_integrated shelf hp boost a ∧
      0 ≤ m.advanced.transient_density ∧
      0 ≤ m.advanced.attack_time_ms ∧
      0 ≤ m.spectral.bass_energy_ratio ∧ m.spectral.bass_energy_ratio ≤ 1 ∧
      0 ≤ m.spectral.mid_energy_ratio ∧ m.spectral.mid_energy_ratio ≤ 1 ∧
      0 ≤ m.spectral.treble_energy_ratio ∧
      m.spectral.treble_energy_ratio ≤ 1 := by
  obtain ⟨p, hpk, hcore⟩ := extract_core_metrics_ok a sr ha
  obtain ⟨c, b, mm, t, hspec, h1, h2, h3, h4, h5, h6⟩ :=
    extract_spectral_metrics_ok a sr ha
  obtain ⟨td, atk, sd, hadv, htd0, hat0⟩ :=
    extract_advanced_metrics_ok shelf hp boost a sr ha
  refine ⟨AudioMetrics.mk ((a.length : ℝ) / sr) sr
      (CoreMetrics.mk (calculate_rms_dbfs a) p
        (calculate_crest_factor_db (calculate_rms_dbfs a) p)
        (calculate_dynamic_range_db a sr))
      (SpectralMetrics.mk c b mm t)
      (AdvancedMetrics.mk (calculate_lufs_integrated shelf hp boost a)
        td atk sd),
    ?_, rfl, rfl, hpk, rfl, rfl, htd0, hat0, h1, h2, h3, h4, h5, h6⟩
  unfold extract_metrics
  rw [hcore, hspec, hadv]

/- ===================== theorems: C6 ===================== -/

/-- C6 counterexample: on the length-zero buffer `extract_metrics`
raises `ValueError` (from `np.max` over an empty array inside
`calculate_peak_dbfs`) instead of returning metrics. -/
theorem c6_extract_metrics_counterexample :
    extract_metrics [] [] [] ([] : List ℝ) 44100 = .error .valueError := by
  unfold extract_metrics extract_core_metrics calculate_peak_dbfs
  rw [if_pos rfl]

/-- C6 (amended): on every NONEMPTY buffer — including silent, very
short and DC-biased ones — and positive sample rate, `extract_metrics`
and all of its sub-extractors return without raising; the duration is
nonnegative, RMS/peak/crest are `-inf`/`-inf`/`0` on silence and finite
on non-silent input (never NaN), the LUFS fallback is finite or `-inf`,
the band ratios lie in [0, 1], and transient density and attack time are
nonnegative.  (Dynamic range, centroid and sustain decay are real-valued
by construction, all logarithms being guarded.)  A length-zero buffer,
by contrast, raises (see the counterexample). -/
theorem c6_extract_metrics_total (shelf hp boost : List SOSSection)
    (a : List ℝ) (sr : ℕ) (ha : a ≠ []) (hsr : 0 < sr) :
    ∃ m, extract_metrics shelf hp boost a sr = .ok m ∧
      0 ≤ m.duration_seconds ∧
      ((∀ x ∈ a, x = 0) →
        m.core.rms_dbfs = .neginf ∧ m.core.peak_dbfs = .neginf ∧
        m.core.crest_factor_db = .fin 0) ∧
      ((∃ x ∈ a, x ≠ 0) →
        (∃ r, m.core.rms_dbfs = .fin r) ∧
        (∃ p, m.core.peak_dbfs = .fin p) ∧
        (∃ cf, m.core.crest_factor_db = .fin cf)) ∧
      (m.advanced.lufs_integrated = .neginf ∨
        ∃ u, m.advanced.lufs_integrated = .fin u) ∧
      0 ≤ m.advanced.transient_density ∧
      0 ≤ m.advanced.attack_time_ms ∧
      0 ≤ m.spectral.bass_energy_ratio ∧ m.spectral.bass_energy_ratio ≤ 1 ∧
      0 ≤ m.spectral.mid_energy_ratio ∧ m.spectral.mid_energy_ratio ≤ 1 ∧
      0 ≤ m.spectral.treble_energy_ratio ∧
      m.spectral.treble_energy_ratio ≤ 1 := by
  obtain ⟨m, hm, hdur, hrms, hpk, hcrest, hlufs, htd0, hat0,
    h1, h2, h3, h4, h5, h6⟩ := extract_metrics_ok shelf hp boost a sr ha
  refine ⟨m, hm, ?_, ?_, ?_, ?_, htd0, hat0, h1, h2, h3, h4, h5, h6⟩
  · rw [hdur]
    positivity
  · intro hsil
    have hr : m.core.rms_dbfs = .neginf := by
      rw [hrms]
      exact (calculate_rms_dbfs_spec a ha).1 hsil
    have hpde : calculate_peak_dbfs a = .ok RVal.neginf :=
      (calculate_peak_dbfs_spec a ha).1 hsil
    have hpe : m.core.peak_dbfs = .neginf := by
      have := hpk.symm.trans hpde
      simp only [Except.ok.injEq] at this
      exact this
    refine ⟨hr, hpe, ?_⟩
    rw [hcrest, hr]
    rfl
  · intro hns
    have hr : m.core.rms_dbfs =
        .fin (20 * Real.logb 10 (Real.sqrt (meanSquare a))) := by
      rw [hrms]
      exact (calculate_rms_dbfs_spec a ha).2 hns
    have hpde : calculate_peak_dbfs a =
        .ok (.fin (20 * Real.logb 10 (maxAbs a))) :=
      (calculate_peak_dbfs_spec a ha).2 hns
    have hpe : m.core.peak_dbfs = .fin (20 * Real.logb 10 (maxAbs a)) := by
      have := hpk.symm.trans hpde
      simp only [Except.ok.injEq] at this
      exact this
    refine ⟨⟨_, hr⟩, ⟨_, hpe⟩,
      ⟨20 * Real.logb 10 (maxAbs a) -
        20 * Real.logb 10 (Real.sqrt (meanSquare a)), ?_⟩⟩
    rw [hcrest, hr, hpe]
    rfl
  · rw [hlufs]
    exact calculate_lufs_integrated_cases shelf hp boost a ha

/-- Witness for C6: totality applied to the short DC-biased buffer
`[1, 0]` at 2 Hz. -/
theorem c6_extract_metrics_total_witness :
    ∃ m, extract_metrics [] [] [] [(1 : ℝ), 0] 2 = .ok m ∧
      0 ≤ m.duration_seconds ∧
      ((∀ x ∈ [(1 : ℝ), 0], x = 0) →
        m.core.rms_dbfs = .neginf ∧ m.core.peak_dbfs = .neginf ∧
        m.core.crest_factor_db = .fin 0) ∧
      ((∃ x ∈ [(1 : ℝ), 0], x ≠ 0) →
        (∃ r, m.core.rms_dbfs = .fin r) ∧
        (∃ p, m.core.peak_dbfs = .fin p) ∧
        (∃ cf, m.core.crest_factor_db = .fin cf)) ∧
      (m.advanced.lufs_integrated = .neginf ∨
        ∃ u, m.advanced.lufs_integrated = .fin u) ∧
      0 ≤ m.advanced.transient_density ∧
      0 ≤ m.advanced.attack_time_ms ∧
      0 ≤ m.spectral.bass_energy_ratio ∧ m.spectral.bass_energy_ratio ≤ 1 ∧
      0 ≤ m.spectral.mid_energy_ratio ∧ m.spectral.mid_energy_ratio ≤ 1 ∧
      0 ≤ m.spectral.treble_energy_ratio ∧
      m.spectral.treble_energy_ratio ≤ 1 :=
  c6_extract_metrics_total [] [] [] [(1 : ℝ), 0] 2 (by simp) (by norm_num)

/- ===================== theorems: C8 ===================== -/

/-- C8 counterexample: on the two-channel buffer with channel 0 equal to
`[1/2, 0]` and channel 1 equal to `[1, 0]`, `extract_metrics` does NOT
return the metrics of channel 0: the flattened buffer's RMS differs from
channel 0's RMS, so the two metric records differ. -/
theorem c8_channel0_counterexample :
    extract_metrics_2d [] [] [] [[(1 : ℝ) / 2, 0], [1, 0]] 44100 ≠
      extract_metrics [] [] [] (channel0 [[(1 : ℝ) / 2, 0], [1, 0]]) 44100 := by
  intro h
  have hflat : extract_metrics_2d [] [] [] [[(1 : ℝ) / 2, 0], [1, 0]] 44100 =
      extract_metrics [] [] [] [(1 : ℝ) / 2, 0, 1, 0] 44100 := by
    unfold extract_metrics_2d
    simp
  have hch : channel0 [[(1 : ℝ) / 2, 0], [1, 0]] = [(1 : ℝ) / 2, 0] := rfl
  rw [hflat, hch] at h
  obtain ⟨m1, hm1, _, hr1, _⟩ :=
    extract_metrics_ok [] [] [] [(1 : ℝ) / 2, 0, 1, 0] 44100 (by simp)
  obtain ⟨m2, hm2, _, hr2, _⟩ :=
    extract_metrics_ok [] [] [] [(1 : ℝ) / 2, 0] 44100 (by simp)
  rw [hm1, hm2] at h
  simp only [Except.ok.injEq] at h
  have heq : calculate_rms_dbfs [(1 : ℝ) / 2, 0, 1, 0] =
      calculate_rms_dbfs [(1 : ℝ) / 2, 0] := by
    rw [← hr1, ← hr2, h]
  have hms1 : meanSquare [(1 : ℝ) / 2, 0, 1, 0] = 5 / 16 := by
    unfold meanSquare npMean
    norm_num
  have hms2 : meanSquare [(1 : ℝ) / 2, 0] = 1 / 8 := by
    unfold meanSquare npMean
    norm_num
  have hv1 : calculate_rms_dbfs [(1 : ℝ) / 2, 0, 1, 0] =
      .fin (20 * Real.logb 10 (Real.sqrt (5 / 16))) := by
    rw [(calculate_rms_dbfs_spec _ (by simp)).2 ⟨1, by norm_num, one_ne_zero⟩,
      hms1]
  have hv2 : calculate_rms_dbfs [(1 : ℝ) / 2, 0] =
      .fin (20 * Real.logb 10 (Real.sqrt (1 / 8))) := by
    rw [(calculate_rms_dbfs_spec _ (by simp)).2
      ⟨1 / 2, by norm_num, by norm_num⟩, hms2]
  rw [hv1, hv2] at heq
  simp only [RVal.fin.injEq] at heq
  have hlt : Real.logb 10 (Real.sqrt (1 / 8)) <
      Real.logb 10 (Real.sqrt (5 / 16)) := by
    apply Real.logb_lt_logb (by norm_num)
    · exact Real.sqrt_pos.mpr (by norm_num)
    · exact Real.sqrt_lt_sqrt (by norm_num) (by norm_num)
  linarith

/-- C8 (amended): `extract_metrics` reduces multi-channel (2-D) input to
1-D by FLATTENING — concatenating all channels in row-major order — not
by selecting channel 0; the metrics of a multi-channel buffer equal
those of the flattened buffer (for a two-channel buffer, of the
concatenation of its channels). -/
theorem c8_extract_metrics_flattens (shelf hp boost : List SOSSection)
    (chs : List (List ℝ)) (sr : ℕ) :
    extract_metrics_2d shelf hp boost chs sr =
      extract_metrics shelf hp boost chs.flatten sr ∧
    ∀ c0 c1 : List ℝ,
      extract_metrics_2d shelf hp boost [c0, c1] sr =
        extract_metrics shelf hp boost (c0 ++ c1) sr := by
  refine ⟨rfl, ?_⟩
  intro c0 c1
  unfold extract_metrics_2d
  rw [show ([c0, c1] : List (List ℝ)).flatten = c0 ++ c1 by simp]
